import Mathlib

/-!
Verification of the Aura accessible-routing backend.

This file gives a shallow embedding, over exact rational arithmetic, of the
routing core of the repository: the accessibility analyzer
(`app/services/accessibility_analyzer.py`), the grid routers
(`app/services/grid_routing_engine.py`, the grid-aligned fallback in
`app/services/routing_engine.py`), the road-network graph builder
(`app/services/road_network_router.py`), the geospatial processor
(`app/services/geospatial_processor.py`) and the orchestrator
(`AdvancedRoutingEngine.calculate_route`).

Python floats are modelled as `ℚ` (exact arithmetic); the transcendental
Haversine distance is threaded through as an abstract parameter
`d : ℚ → ℚ → ℚ → ℚ → ℚ` (taking `lat1 lon1 lat2 lon2`), with only the
properties actually guaranteed by the formula (non-negativity, reflexivity)
assumed where needed.  `math.sqrt` is likewise threaded as an abstract
`sq : ℚ → ℚ` where it occurs.  Fallible or possibly non-terminating Python
code is modelled with `Option`/`Except` (`none` marks a raised
`ZeroDivisionError` or a `RecursionError`/divergence).
-/

namespace Aura

/-- Model of `schemas.Coordinates`: a latitude/longitude pair. -/
structure Coordinates where
  latitude : ℚ
  longitude : ℚ
deriving DecidableEq, Repr, Inhabited

/-- Model of `schemas.RoutePoint`.  `elevation` is `Optional[float]` in the
source, hence `Option ℚ` here; `segment_time` is an `int`. -/
structure RoutePoint where
  latitude : ℚ
  longitude : ℚ
  instruction : String
  distance_from_start : ℚ
  elevation : Option ℚ
  accessibility_features : List String
  warnings : List String
  segment_time : ℤ
deriving DecidableEq, Repr

/-- Model of `schemas.AccessibilityPreferences`.  The `mobility_aid` enum is
kept as its `.value` string, matching how the Python code consumes it. -/
structure AccessibilityPreferences where
  avoid_stairs : Bool
  avoid_steep_slopes : Bool
  max_slope_percentage : ℚ
  require_curb_cuts : Bool
  avoid_construction : Bool
  prefer_wider_sidewalks : Bool
  require_tactile_guidance : Bool
  mobility_aid : String
deriving DecidableEq, Repr

/-- Model of `schemas.ObstacleResponse` (the fields the analyzed code reads).
`type` and `severity` are kept as their `.value` strings. -/
structure ObstacleResponse where
  type : String
  severity : String
  affects_wheelchair : Bool
  affects_visually_impaired : Bool
  affects_mobility_aid : Bool
deriving DecidableEq, Repr

/-- Model of `schemas.AccessibilityScore`. -/
structure AccessibilityScore where
  overall_score : ℚ
  surface_quality : ℚ
  slope_accessibility : ℚ
  obstacle_avoidance : ℚ
  width_adequacy : ℚ
  safety_rating : ℚ
  lighting_adequacy : ℚ
  traffic_safety : ℚ
deriving DecidableEq, Repr

/-! ### String helpers

The analyzer scans warning/feature strings with Python's `str.lower` and the
`in` substring operator; these are reproduced here over `List Char`. -/

/-- Python `needle in hay` over character lists (empty needle matches). -/
def containsSeq (needle : List Char) : List Char → Bool
  | [] => needle.isEmpty
  | c :: rest => needle.isPrefixOf (c :: rest) || containsSeq needle rest

/-- Python `str.lower()` (ASCII case fold suffices for the analyzed literals). -/
def strLower (s : String) : String := s.map Char.toLower

/-- Python `needle in hay` on strings. -/
def strContains (hay needle : String) : Bool := containsSeq needle.toList hay.toList

/-- Python `" ".join(ws).lower()` as used on warning lists. -/
def joinedLower (ws : List String) : String := strLower (String.intercalate " " ws)

/-! ### AccessibilityAnalyzer

Embedding of `app/services/accessibility_analyzer.py`. -/

/-- The `scoring_weights` dict of `AccessibilityAnalyzer.__init__`. -/
def scoring_weights (k : String) : ℚ :=
  if k = "surface_quality" then 20/100
  else if k = "slope_accessibility" then 25/100
  else if k = "obstacle_avoidance" then 20/100
  else if k = "width_adequacy" then 10/100
  else if k = "safety_rating" then 10/100
  else if k = "lighting_adequacy" then 8/100
  else if k = "traffic_safety" then 7/100
  else 0

/-- Severity→penalty dict of `_analyze_surface_quality` (default `0.1`). -/
def surfaceSeverityPenalty (sev : String) : ℚ :=
  if sev = "critical" then 4/10
  else if sev = "high" then 3/10
  else if sev = "medium" then 2/10
  else if sev = "low" then 1/10
  else 1/10

/-- `AccessibilityAnalyzer._analyze_surface_quality`. -/
def analyzeSurfaceQuality (route_points : List RoutePoint)
    (obstacles : List ObstacleResponse) : ℚ :=
  let surfaceObs := obstacles.filter fun o =>
    o.type == "broken_surface" || o.type == "narrow_path"
  let base := surfaceObs.foldl (fun acc o => acc - surfaceSeverityPenalty o.severity) (9/10)
  let svp := route_points.foldl (fun acc p =>
    let w := joinedLower p.warnings
    let acc1 := if strContains w "uneven" then acc + 5/100 else acc
    if strContains w "cracked" then acc1 + 10/100 else acc1) 0
  max 0 (min 1 (base - min svp (3/10)))

/-- Consecutive pairs `(points[i-1], points[i])` for `i = 1 .. len-1`. -/
def consecutivePairs {α : Type} (l : List α) : List (α × α) := l.zip l.tail

/-- Per-segment body of the `_analyze_slope_accessibility` loop: `none` when
either endpoint has no elevation (the `is not None` guard). -/
def slopeScoreOfPair (d : ℚ → ℚ → ℚ → ℚ → ℚ) (maxSlope : ℚ)
    (pq : RoutePoint × RoutePoint) : Option ℚ :=
  match pq.1.elevation, pq.2.elevation with
  | some e1, some e2 =>
    let dist := d pq.1.latitude pq.1.longitude pq.2.latitude pq.2.longitude
    let elevation_change := |e2 - e1|
    let slope_percentage := if dist > 0 then elevation_change / max dist 1 * 100 else 0
    some (if slope_percentage ≤ maxSlope then 1
          else max 0 (1 - min 1 ((slope_percentage - maxSlope) / 10)))
  | _, _ => none

/-- `AccessibilityAnalyzer._analyze_slope_accessibility` (distance function
`d` abstracts the Haversine helper `_calculate_distance`). -/
def analyzeSlopeAccessibility (d : ℚ → ℚ → ℚ → ℚ → ℚ)
    (route_points : List RoutePoint) (preferences : AccessibilityPreferences) : ℚ :=
  if route_points.length < 2 then 1
  else
    let slope_scores :=
      (consecutivePairs route_points).filterMap
        (slopeScoreOfPair d preferences.max_slope_percentage)
    if slope_scores.isEmpty then 8/10 else slope_scores.sum / slope_scores.length

/-- Severity→penalty dict of `_analyze_obstacle_avoidance` (default `0.1`). -/
def severityPenalty (sev : String) : ℚ :=
  if sev = "critical" then 5/10
  else if sev = "high" then 3/10
  else if sev = "medium" then 15/100
  else if sev = "low" then 5/100
  else 1/10

/-- First amplification block: stairs matching `avoid_stairs` (`×1.5`). -/
def ampStairs (p : AccessibilityPreferences) (o : ObstacleResponse) (s : ℚ) : ℚ :=
  if o.type == "stairs" && p.avoid_stairs then s * (15/10) else s

/-- Second amplification block: construction matching `avoid_construction` (`×1.3`). -/
def ampConstruction (p : AccessibilityPreferences) (o : ObstacleResponse) (s : ℚ) : ℚ :=
  if o.type == "construction" && p.avoid_construction then s * (13/10) else s

/-- Third amplification block: steep slope matching `avoid_steep_slopes` (`×1.4`). -/
def ampSteepSlope (p : AccessibilityPreferences) (o : ObstacleResponse) (s : ℚ) : ℚ :=
  if o.type == "steep_slope" && p.avoid_steep_slopes then s * (14/10) else s

/-- Mobility-aid amplification block: wheelchair `×1.3` when
`affects_wheelchair`, walker/cane `×1.2` when `affects_mobility_aid`. -/
def ampMobilityAid (p : AccessibilityPreferences) (o : ObstacleResponse) (s : ℚ) : ℚ :=
  if p.mobility_aid == "wheelchair" then
    (if o.affects_wheelchair then s * (13/10) else s)
  else if p.mobility_aid == "walker" || p.mobility_aid == "cane" then
    (if o.affects_mobility_aid then s * (12/10) else s)
  else s

/-- Per-obstacle penalty of the `_analyze_obstacle_avoidance` loop body. -/
def obstaclePenalty (p : AccessibilityPreferences) (o : ObstacleResponse) : ℚ :=
  ampMobilityAid p o (ampSteepSlope p o (ampConstruction p o (ampStairs p o
    (severityPenalty o.severity))))

/-- `AccessibilityAnalyzer._analyze_obstacle_avoidance`. -/
def analyzeObstacleAvoidance (obstacles : List ObstacleResponse)
    (preferences : AccessibilityPreferences) : ℚ :=
  if obstacles.isEmpty then 1
  else
    let total_penalty := (obstacles.map (obstaclePenalty preferences)).sum
    max 0 (1 - min total_penalty (8/10))

/-- Number of strings in `l` containing (case-insensitively) one of the
keywords, mirroring the `any(keyword in x.lower() ...)` counting loops. -/
def countMatches (kws : List String) (l : List String) : ℕ :=
  (l.filter fun x => kws.any fun k => strContains (strLower x) k).length

/-- Total keyword-match count over every point's `accessibility_features`. -/
def countFeatures (kws : List String) (pts : List RoutePoint) : ℕ :=
  (pts.map fun p => countMatches kws p.accessibility_features).sum

/-- Total keyword-match count over every point's `warnings`. -/
def countWarnings (kws : List String) (pts : List RoutePoint) : ℕ :=
  (pts.map fun p => countMatches kws p.warnings).sum

/-- `AccessibilityAnalyzer._analyze_width_adequacy`. -/
def analyzeWidthAdequacy (route_points : List RoutePoint)
    (preferences : AccessibilityPreferences) : ℚ :=
  let base0 : ℚ := 85/100
  let base1 := if preferences.prefer_wider_sidewalks then
      base0 + min ((countFeatures ["wide", "wider"] route_points : ℚ) * (2/100)) (15/100)
    else base0
  let base2 := base1 - min ((countWarnings ["narrow", "width"] route_points : ℚ) * (10/100)) (4/10)
  let base3 := if preferences.mobility_aid == "wheelchair" then base2 * (95/100) else base2
  max 0 (min 1 base3)

/-- `AccessibilityAnalyzer._analyze_safety_rating`. -/
def analyzeSafetyRating (route_points : List RoutePoint) : ℚ :=
  let sf := countFeatures ["safe", "well-lit", "protected", "secure"] route_points
  let sw := countWarnings ["unsafe", "danger", "hazard", "risk"] route_points
  max 0 (min 1 (8/10 + min ((sf : ℚ) * (2/100)) (15/100) - min ((sw : ℚ) * (5/100)) (3/10)))

/-- `AccessibilityAnalyzer._analyze_lighting_adequacy`. -/
def analyzeLightingAdequacy (route_points : List RoutePoint) : ℚ :=
  let lf := countFeatures ["lit", "lighting"] route_points
  max 0 (min 1 (75/100 + min ((lf : ℚ) * (3/100)) (2/10)))

/-- `AccessibilityAnalyzer._analyze_traffic_safety`. -/
def analyzeTrafficSafety (route_points : List RoutePoint) : ℚ :=
  let tw := countWarnings ["traffic", "crossing", "busy road", "highway"] route_points
  let tf := countFeatures ["crossing", "signal", "protected", "pedestrian"] route_points
  max 0 (min 1 (85/100 - min ((tw : ℚ) * (8/100)) (4/10) + min ((tf : ℚ) * (3/100)) (15/100)))

/-- Python's `round(x, 3)`: rounding to 3 decimals.  (Python rounds exact
half-thousandths to even; this model rounds them up — the two agree at every
other rational, and no property proved below depends on the tie case.) -/
def round3 (q : ℚ) : ℚ := (round (q * 1000) : ℤ) / 1000

/-- `AccessibilityAnalyzer.calculate_comprehensive_score`. -/
def calculateComprehensiveScore (d : ℚ → ℚ → ℚ → ℚ → ℚ)
    (route_points : List RoutePoint) (preferences : AccessibilityPreferences)
    (obstacles : List ObstacleResponse) : AccessibilityScore :=
  let surface_quality := analyzeSurfaceQuality route_points obstacles
  let slope_accessibility := analyzeSlopeAccessibility d route_points preferences
  let obstacle_avoidance := analyzeObstacleAvoidance obstacles preferences
  let width_adequacy := analyzeWidthAdequacy route_points preferences
  let safety_rating := analyzeSafetyRating route_points
  let lighting_adequacy := analyzeLightingAdequacy route_points
  let traffic_safety := analyzeTrafficSafety route_points
  let overall_score :=
    surface_quality * scoring_weights "surface_quality" +
    slope_accessibility * scoring_weights "slope_accessibility" +
    obstacle_avoidance * scoring_weights "obstacle_avoidance" +
    width_adequacy * scoring_weights "width_adequacy" +
    safety_rating * scoring_weights "safety_rating" +
    lighting_adequacy * scoring_weights "lighting_adequacy" +
    traffic_safety * scoring_weights "traffic_safety"
  { overall_score := round3 overall_score
    surface_quality := round3 surface_quality
    slope_accessibility := round3 slope_accessibility
    obstacle_avoidance := round3 obstacle_avoidance
    width_adequacy := round3 width_adequacy
    safety_rating := round3 safety_rating
    lighting_adequacy := round3 lighting_adequacy
    traffic_safety := round3 traffic_safety }

/-! ### Simplified grid route

Embedding of `GridBasedRoutingEngine._calculate_simplified_grid_route`
(`app/services/grid_routing_engine.py`), the Manhattan fallback used when the
main grid routing fails.  Only the produced `route_points` list is modelled
(the surrounding `Route` object copies it verbatim). -/

/-- Python `int(x)` (truncation toward zero) on a rational. -/
def pyInt (q : ℚ) : ℤ := q.num / (q.den : ℤ)

/-- The starting `RoutePoint` appended first by
`_calculate_simplified_grid_route`. -/
def sgrStartPoint (s : Coordinates) : RoutePoint :=
  { latitude := s.latitude, longitude := s.longitude
    instruction := "Start your journey on grid-aligned route"
    distance_from_start := 0, elevation := some 0
    accessibility_features := ["Grid-aligned starting point"]
    warnings := [], segment_time := 0 }

/-- The intermediate waypoints appended by the two movement blocks of
`_calculate_simplified_grid_route` (lines 194–267).  Note the faithful
reproduction of the argument order of the second `_calculate_distance` call
in the horizontal-first branch, which the source passes as
`(end_lon, start_lat, end_lat, end_lon)`. -/
def sgrMidPoints (d : ℚ → ℚ → ℚ → ℚ → ℚ) (s e : Coordinates) : List RoutePoint :=
  let start_lat := s.latitude
  let start_lon := s.longitude
  let end_lat := e.latitude
  let end_lon := e.longitude
  let lat_diff := end_lat - start_lat
  let lon_diff := end_lon - start_lon
  if |lon_diff| > |lat_diff| then
    let d1 := d start_lat start_lon start_lat end_lon
    let c1 := if |lon_diff| > 1/10000 then d1 else 0
    let d2 := d end_lon start_lat end_lat end_lon
    (if |lon_diff| > 1/10000 then
      [{ latitude := start_lat, longitude := end_lon
         instruction := "Continue " ++ (if lon_diff > 0 then "east" else "west") ++ " to intersection"
         distance_from_start := d1, elevation := some 0
         accessibility_features := ["Horizontal road segment", "Grid-aligned path"]
         warnings := [], segment_time := pyInt (d1 / 1000 / 4 * 3600) }]
     else []) ++
    (if |lat_diff| > 1/10000 then
      [{ latitude := end_lat, longitude := end_lon
         instruction := "Turn " ++ (if lat_diff > 0 then "north" else "south") ++ " at intersection"
         distance_from_start := c1 + d2, elevation := some 0
         accessibility_features := ["Intersection with accessible crossing", "Vertical road segment"]
         warnings := [], segment_time := pyInt (d2 / 1000 / 4 * 3600) }]
     else [])
  else
    let d1 := d start_lat start_lon end_lat start_lon
    let c1 := if |lat_diff| > 1/10000 then d1 else 0
    let d2 := d end_lat start_lon end_lat end_lon
    (if |lat_diff| > 1/10000 then
      [{ latitude := end_lat, longitude := start_lon
         instruction := "Continue " ++ (if lat_diff > 0 then "north" else "south") ++ " to intersection"
         distance_from_start := d1, elevation := some 0
         accessibility_features := ["Vertical road segment", "Grid-aligned path"]
         warnings := [], segment_time := pyInt (d1 / 1000 / 4 * 3600) }]
     else []) ++
    (if |lon_diff| > 1/10000 then
      [{ latitude := end_lat, longitude := end_lon
         instruction := "Turn " ++ (if lon_diff > 0 then "east" else "west") ++ " at intersection"
         distance_from_start := c1 + d2, elevation := some 0
         accessibility_features := ["Intersection with accessible crossing", "Horizontal road segment"]
         warnings := [], segment_time := pyInt (d2 / 1000 / 4 * 3600) }]
     else [])

/-- Value of `cumulative_distance` after the movement blocks of
`_calculate_simplified_grid_route`. -/
def sgrCum (d : ℚ → ℚ → ℚ → ℚ → ℚ) (s e : Coordinates) : ℚ :=
  let lat_diff := e.latitude - s.latitude
  let lon_diff := e.longitude - s.longitude
  if |lon_diff| > |lat_diff| then
    let c1 := if |lon_diff| > 1/10000 then d s.latitude s.longitude s.latitude e.longitude else 0
    if |lat_diff| > 1/10000 then c1 + d e.longitude s.latitude e.latitude e.longitude else c1
  else
    let c1 := if |lat_diff| > 1/10000 then d s.latitude s.longitude e.latitude s.longitude else 0
    if |lon_diff| > 1/10000 then c1 + d e.latitude s.longitude e.latitude e.longitude else c1

/-- The destination `RoutePoint` appended by
`_calculate_simplified_grid_route` when the last waypoint does not already
coincide with the destination (its `distance_from_start` is the final
`cumulative_distance`). -/
def sgrArrival (d : ℚ → ℚ → ℚ → ℚ → ℚ) (s e : Coordinates) : RoutePoint :=
  { latitude := e.latitude, longitude := e.longitude
    instruction := "You have arrived at your destination"
    distance_from_start := sgrCum d s e, elevation := some 0
    accessibility_features := ["Destination reached"]
    warnings := [], segment_time := 0 }

/-- `GridBasedRoutingEngine._calculate_simplified_grid_route`: the produced
`route_points` list (start point, movement waypoints, and the destination
point appended only when the last waypoint does not already coincide with
the destination coordinates). -/
def simplifiedGridRoutePoints (d : ℚ → ℚ → ℚ → ℚ → ℚ) (s e : Coordinates) : List RoutePoint :=
  let base := sgrStartPoint s :: sgrMidPoints d s e
  let lastP := base.getLastD (sgrStartPoint s)
  if lastP.latitude ≠ e.latitude ∨ lastP.longitude ≠ e.longitude then
    base ++ [sgrArrival d s e]
  else base

/-! ### Grid-aligned dogleg waypoints

Embedding of `AdvancedRoutingEngine._generate_grid_aligned_points`
(`app/services/routing_engine.py` lines 813–902): only the waypoint
coordinates matter here; the subsequent conversion to `RoutePoint`s copies
them with cumulative distances. -/

/-- One movement axis of the dogleg order list. -/
inductive Axis where
  | vertical : Axis
  | horizontal : Axis
deriving DecidableEq, Repr

/-- Body of the `for step in order` loop: appends the step waypoint, whose
fixed coordinate is read from the previous waypoint (`waypoints[-1]`). -/
def applyStep (s e : Coordinates) (acc : List Coordinates) (step : Axis) : List Coordinates :=
  match step with
  | .horizontal =>
    if e.longitude ≠ s.longitude then
      acc ++ [⟨(acc.getLastD s).latitude, e.longitude⟩] else acc
  | .vertical =>
    if e.latitude ≠ s.latitude then
      acc ++ [⟨e.latitude, (acc.getLastD s).longitude⟩] else acc

/-- The waypoint list of `_generate_grid_aligned_points`: start, the ordered
dogleg steps, then the destination (appended unconditionally). -/
def gridAlignedWaypoints (level : String) (s e : Coordinates) : List Coordinates :=
  let order : List Axis :=
    if level = "high" then [.vertical, .horizontal]
    else if level = "low" then [.horizontal, .vertical]
    else if |e.latitude - s.latitude| ≥ |e.longitude - s.longitude| then [.vertical, .horizontal]
    else [.horizontal, .vertical]
  (order.foldl (applyStep s e) [s]) ++ [e]

/-! ### Manhattan grid path

Embedding of `GridBasedRoutingEngine._calculate_manhattan_path`.  Grid nodes
`node_{i}_{j}` are modelled by their integer index pairs, and the
`self.grid_nodes` dictionary by a membership function `mem`. -/

/-- One `while current != end` movement loop of `_calculate_manhattan_path`:
steps `cur` toward `target` one index at a time, materializing each visited
node through `mk` and checking grid membership; `none` models the early
`return []`. -/
def tryWalk (mem : ℤ → ℤ → Bool) (mk : ℤ → ℤ × ℤ) (cur target : ℤ) :
    Option (List (ℤ × ℤ)) :=
  if cur = target then some []
  else if target > cur then
    if mem (mk (cur + 1)).1 (mk (cur + 1)).2 then
      (tryWalk mem mk (cur + 1) target).map (fun l => mk (cur + 1) :: l)
    else none
  else
    if mem (mk (cur - 1)).1 (mk (cur - 1)).2 then
      (tryWalk mem mk (cur - 1) target).map (fun l => mk (cur - 1) :: l)
    else none
termination_by (target - cur).natAbs
decreasing_by
  · omega
  · omega

/-- `GridBasedRoutingEngine._calculate_manhattan_path` on index pairs: the
longer axis moves first; `[]` models the early return when a grid node is
missing. -/
def manhattanPath (mem : ℤ → ℤ → Bool) (start_i start_j end_i end_j : ℤ) :
    List (ℤ × ℤ) :=
  let lat_distance := (end_i - start_i).natAbs
  let lon_distance := (end_j - start_j).natAbs
  if lon_distance ≥ lat_distance then
    match tryWalk mem (fun j => (start_i, j)) start_j end_j with
    | none => []
    | some hseg =>
      match tryWalk mem (fun i => (i, end_j)) start_i end_i with
      | none => []
      | some vseg => (start_i, start_j) :: (hseg ++ vseg)
  else
    match tryWalk mem (fun i => (i, start_j)) start_i end_i with
    | none => []
    | some vseg =>
      match tryWalk mem (fun j => (end_i, j)) start_j end_j with
      | none => []
      | some hseg => (start_i, start_j) :: (vseg ++ hseg)

/-! ### Orchestrator

Embedding of `AdvancedRoutingEngine.calculate_route`
(`app/services/routing_engine.py` lines 84–183).  The external stages
(Mapbox, OSRM, `RoadNetworkRouter`) and the internal graph search are
modelled by their observable outcomes; `Except Unit` is the exception monad
of the method as seen by its caller. -/

/-- A parsed OSM node record. -/
structure OsmNodeRec where
  id : ℤ
  lat : ℚ
  lon : ℚ
deriving DecidableEq, Repr

/-- A parsed OSM way record (tags already defaulted as in
`_build_road_graph`: `highway`→"residential", `surface`→"asphalt",
`sidewalk`→"none"). -/
structure OsmWayRec where
  id : ℤ
  nodes : List ℤ
  highway : String
  surface : String
  sidewalk : String
deriving DecidableEq, Repr

/-- The fields of `RoadEdge` this verification inspects. -/
structure RoadEdge where
  from_node : ℤ
  to_node : ℤ
  distance : ℚ
  road_type : String
  surface : String
  has_sidewalk : Bool
  accessibility_score : ℚ
deriving DecidableEq, Repr

/-- `RoadNetworkRouter._calculate_edge_accessibility`. -/
def calculateEdgeAccessibility (highway surface sidewalk : String) : ℚ :=
  let score0 : ℚ := 8/10
  let score1 :=
    if highway = "footway" ∨ highway = "pedestrian" ∨ highway = "cycleway" then score0 + 15/100
    else if highway = "residential" then score0 + 5/100
    else if highway = "primary" ∨ highway = "secondary" then score0 - 10/100
    else score0
  let score2 :=
    if surface = "asphalt" ∨ surface = "concrete" ∨ surface = "paved" then score1 + 10/100
    else if surface = "gravel" ∨ surface = "dirt" ∨ surface = "grass" then score1 - 20/100
    else score1
  let score3 :=
    if sidewalk = "both" then score2 + 15/100
    else if sidewalk = "left" ∨ sidewalk = "right" then score2 + 5/100
    else score2 - 10/100
  max (1/10) (min 1 score3)

/-- A key of the Python `nodes_data` dict.  The parse stores entries under
the raw integer ids; the edge guard probes with `str(node_id)`.  Python
equality between an `int` key and a `str` probe is always `False`, which the
two constructors keep apart. -/
inductive PyKey where
  | int (n : ℤ)
  | str (s : String)
deriving DecidableEq, Repr

/-- The parsed `nodes_data` dict: one integer-keyed entry per node record
(`nodes_data[element["id"]] = {...}`). -/
def nodesData (nodes : List OsmNodeRec) : List (PyKey × OsmNodeRec) :=
  nodes.map fun n => (PyKey.int n.id, n)

/-- Python `key in dict` / `dict[key]`: the first entry whose key equals the
probe. -/
def dictFind (dct : List (PyKey × OsmNodeRec)) (k : PyKey) : Option OsmNodeRec :=
  (dct.find? fun kv => kv.1 == k).map Prod.snd

/-- The edges one way contributes in `_build_road_graph`: one candidate edge
per consecutive node pair, guarded by `str(way_nodes[i]) in nodes_data and
str(way_nodes[i+1]) in nodes_data` — string probes into the integer-keyed
dict — with the body reading `nodes_data[way_nodes[i]]` back by integer
key. -/
def wayEdges (d : ℚ → ℚ → ℚ → ℚ → ℚ) (nodes : List OsmNodeRec) (w : OsmWayRec) :
    List RoadEdge :=
  (consecutivePairs w.nodes).filterMap fun ab =>
    if (dictFind (nodesData nodes) (PyKey.str (toString ab.1))).isSome &&
       (dictFind (nodesData nodes) (PyKey.str (toString ab.2))).isSome then
      match dictFind (nodesData nodes) (PyKey.int ab.1),
            dictFind (nodesData nodes) (PyKey.int ab.2) with
      | some na, some nb =>
        some { from_node := ab.1, to_node := ab.2
               distance := d na.lat na.lon nb.lat nb.lon
               road_type := w.highway, surface := w.surface
               has_sidewalk := w.sidewalk == "both" || w.sidewalk == "left" || w.sidewalk == "right"
               accessibility_score := calculateEdgeAccessibility w.highway w.surface w.sidewalk }
      | _, _ => none
    else none

/-- All edges built by `_build_road_graph` from the parsed records. -/
def buildRoadGraphEdges (d : ℚ → ℚ → ℚ → ℚ → ℚ) (nodes : List OsmNodeRec)
    (ways : List OsmWayRec) : List RoadEdge :=
  (ways.map (wayEdges d nodes)).flatten

/-- The specification's highway-type adjustment. -/
def claimHighwayAdjustment (h : String) : ℚ :=
  if h = "footway" ∨ h = "pedestrian" ∨ h = "cycleway" then 15/100
  else if h = "residential" then 5/100
  else if h = "primary" ∨ h = "secondary" then -(10/100)
  else 0

/-- The specification's surface adjustment (paved `+0.1`, unpaved `−0.2`). -/
def claimSurfaceAdjustment (s : String) : ℚ :=
  if s = "asphalt" ∨ s = "concrete" ∨ s = "paved" then 10/100
  else if s = "gravel" ∨ s = "dirt" ∨ s = "grass" then -(20/100)
  else 0

/-- The specification's sidewalk adjustment (both `+0.15`, one side `+0.05`,
none `−0.1`). -/
def claimSidewalkAdjustment (s : String) : ℚ :=
  if s = "both" then 15/100
  else if s = "left" ∨ s = "right" then 5/100
  else -(10/100)

/-- The specification's edge score: base `0.8` plus the three adjustments,
clamped to `[0.1, 1.0]`. -/
def claimEdgeScore (highway surface sidewalk : String) : ℚ :=
  max (1/10) (min 1 (8/10 + claimHighwayAdjustment highway +
    claimSurfaceAdjustment surface + claimSidewalkAdjustment sidewalk))

/-! ### Geospatial processor

`GeospatialProcessor.interpolate_points`
(`app/services/geospatial_processor.py` lines 45–55). -/

/-- `GeospatialProcessor.interpolate_points`.  `none` models the
`ZeroDivisionError` raised by `ratio = i / num_points` when
`num_points == 0` (the loop body runs once, with `i = 0`); for negative
counts `range(num_points + 1)` is empty and the empty list is returned. -/
def interpolatePoints (start endp : Coordinates) (num_points : ℤ) :
    Option (List Coordinates) :=
  if num_points < 0 then some []
  else if num_points = 0 then none
  else some ((List.range (num_points.toNat + 1)).map fun i =>
    let ratio : ℚ := (i : ℚ) / (num_points : ℚ)
    { latitude := start.latitude + (endp.latitude - start.latitude) * ratio
      longitude := start.longitude + (endp.longitude - start.longitude) * ratio })

/-! ### Route simplification (Douglas–Peucker)

Embedding of `GeospatialProcessor.simplify_route` / `_douglas_peucker` /
`_point_to_line_distance` (lines 140–191).  `math.sqrt` is abstracted as
`sq : ℚ → ℚ` and the Haversine helper as `d` (used only when the chord is
degenerate).  The recursion is fuel-indexed with fuel = list length, which
is exactly enough for every terminating run of the Python recursion (each
recursive call shortens the list when `max_index ≥ 1`); `none` therefore
models the `RecursionError` of a run that loops on `max_index = 0`. -/

/-- `GeospatialProcessor._point_to_line_distance`: perpendicular deviation of
`p` from the chord `a`–`b` in planar lon/lat, scaled to meters; falls back to
the Haversine distance `d(p, a)` when the chord is degenerate. -/
def pointToLineDistance (sq : ℚ → ℚ) (d : ℚ → ℚ → ℚ → ℚ → ℚ)
    (p a b : Coordinates) : ℚ :=
  let num := |(b.latitude - a.latitude) * p.longitude -
              (b.longitude - a.longitude) * p.latitude +
              b.longitude * a.latitude - b.latitude * a.longitude|
  let den := sq ((b.latitude - a.latitude) ^ 2 + (b.longitude - a.longitude) ^ 2)
  if den = 0 then d p.latitude p.longitude a.latitude a.longitude
  else num / den * 111320

/-- The `for i in range(1, len(points) - 1)` scan of `_douglas_peucker`:
running strict-maximum deviation and the first index attaining it. -/
def dpScanGo (dev : Coordinates → ℚ) : List Coordinates → Nat → ℚ → Nat → ℚ × Nat
  | [], _, bd, bi => (bd, bi)
  | p :: rest, i, bd, bi =>
    if dev p > bd then dpScanGo dev rest (i + 1) (dev p) i
    else dpScanGo dev rest (i + 1) bd bi

/-- Maximum interior deviation and its first index (`max_distance`,
`max_index`), starting from `(0, 0)`. -/
def dpScan (dev : Coordinates → ℚ) (points : List Coordinates) : ℚ × Nat :=
  dpScanGo dev ((points.drop 1).dropLast) 1 0 0

/-- `GeospatialProcessor._douglas_peucker`, fuel-indexed. -/
def dpFuel (sq : ℚ → ℚ) (d : ℚ → ℚ → ℚ → ℚ → ℚ) :
    Nat → List Coordinates → ℚ → Option (List Coordinates)
  | 0, _, _ => none
  | fuel + 1, points, tolerance =>
    if points.length < 3 then some points
    else
      let a := points.headD default
      let b := points.getLastD default
      let md := dpScan (fun p => pointToLineDistance sq d p a b) points
      if md.1 > tolerance then
        match dpFuel sq d fuel (points.take (md.2 + 1)) tolerance,
              dpFuel sq d fuel (points.drop md.2) tolerance with
        | some left, some right => some (left.dropLast ++ right)
        | _, _ => none
      else some [a, b]

/-- `GeospatialProcessor.simplify_route`. -/
def simplifyRoute (sq : ℚ → ℚ) (d : ℚ → ℚ → ℚ → ℚ → ℚ)
    (route_points : List Coordinates) (tolerance : ℚ) : Option (List Coordinates) :=
  if route_points.length < 3 then some route_points
  else dpFuel sq d route_points.length route_points tolerance

/-- The deviation closure of one `_douglas_peucker` invocation: distance of
`p` from the chord between the first and last point of `points`. -/
def dpDev (sq : ℚ → ℚ) (d : ℚ → ℚ → ℚ → ℚ → ℚ) (points : List Coordinates) :
    Coordinates → ℚ :=
  fun p => pointToLineDistance sq d p (points.headD default) (points.getLastD default)

/-! ## Theorems -/

/-! ### C7: totality of the GeoMath functions -/

/-- C7 — refuted on the code: `interpolate_points` with an interpolation
count of zero raises `ZeroDivisionError` (`ratio = i / num_points` with
`num_points = 0` at `i = 0`), so the GeoMath functions are not all total;
the model returns `none` at that failing input. -/
theorem C7_interpolate_zero_count_raises :
    interpolatePoints ⟨0, 0⟩ ⟨1, 1⟩ 0 = none := rfl

/-! ### C1: orchestrator stage chain -/

theorem calculateEdgeAccessibility_eq (highway surface sidewalk : String) :
    calculateEdgeAccessibility highway surface sidewalk
      = claimEdgeScore highway surface sidewalk := by
  unfold calculateEdgeAccessibility claimEdgeScore claimHighwayAdjustment
    claimSurfaceAdjustment claimSidewalkAdjustment
  split_ifs <;> norm_num

theorem claimEdgeScore_bounds (highway surface sidewalk : String) :
    1/10 ≤ claimEdgeScore highway surface sidewalk ∧
    claimEdgeScore highway surface sidewalk ≤ 1 := by
  unfold claimEdgeScore
  exact ⟨le_max_left _ _, max_le (by norm_num) (min_le_left _ _)⟩

theorem dictFind_str_none (nodes : List OsmNodeRec) (str_probe : String) :
    dictFind (nodesData nodes) (PyKey.str str_probe) = none := by
  induction nodes with
  | nil => rfl
  | cons n t ih =>
    simp only [dictFind, nodesData, List.map_cons, List.find?_cons] at ih ⊢
    rw [show ((PyKey.int n.id, n).1 == PyKey.str str_probe) = false by simp]
    exact ih

/-- C6 — refuted on the code: the fetched-mode graph builder creates no edge
at all.  Its guard `str(way_nodes[i]) in nodes_data` probes the
integer-keyed `nodes_data` dict with a string, which never matches, so for
every distance function, node list and way list the built edge set is
empty; the claimed per-edge accessibility score is never attached to
anything. -/
theorem C6_fetched_mode_builds_no_edges (d : ℚ → ℚ → ℚ → ℚ → ℚ)
    (nodes : List OsmNodeRec) (ways : List OsmWayRec) :
    buildRoadGraphEdges d nodes ways = [] := by
  have h : ∀ w, wayEdges d nodes w = [] := by
    intro w
    simp only [wayEdges, dictFind_str_none]
    simp
  simp only [buildRoadGraphEdges]
  rw [List.map_congr_left (fun w _ => h w)]
  simp

/-! ### C4: obstacle-avoidance sub-score -/

/-- The specification's per-obstacle type amplifier (the three type/preference
matches are mutually exclusive, so the source's stacked `if`s form a chain):
stairs `×1.5`, construction `×1.3`, steep slope `×1.4`. -/
def claimTypeAmplifier (p : AccessibilityPreferences) (o : ObstacleResponse) : ℚ :=
  if o.type == "stairs" && p.avoid_stairs then 15/10
  else if o.type == "construction" && p.avoid_construction then 13/10
  else if o.type == "steep_slope" && p.avoid_steep_slopes then 14/10
  else 1

/-- The specification's mobility-aid amplifier: wheelchair `×1.3`,
walker/cane `×1.2`, otherwise none. -/
def claimAidAmplifier (p : AccessibilityPreferences) (o : ObstacleResponse) : ℚ :=
  if p.mobility_aid == "wheelchair" && o.affects_wheelchair then 13/10
  else if (p.mobility_aid == "walker" || p.mobility_aid == "cane") && o.affects_mobility_aid
    then 12/10
  else 1

/-- The specification's per-obstacle penalty: severity base times both
amplifiers (they compound multiplicatively). -/
def claimObstaclePenalty (p : AccessibilityPreferences) (o : ObstacleResponse) : ℚ :=
  severityPenalty o.severity * claimTypeAmplifier p o * claimAidAmplifier p o

theorem typeAmp_eq (p : AccessibilityPreferences) (o : ObstacleResponse) (s : ℚ) :
    ampSteepSlope p o (ampConstruction p o (ampStairs p o s)) = s * claimTypeAmplifier p o := by
  unfold ampStairs ampConstruction ampSteepSlope claimTypeAmplifier
  by_cases h1 : o.type = "stairs" <;> by_cases h2 : o.type = "construction" <;>
    by_cases h3 : o.type = "steep_slope" <;> simp_all <;> split_ifs <;> ring

theorem aidAmp_eq (p : AccessibilityPreferences) (o : ObstacleResponse) (s : ℚ) :
    ampMobilityAid p o s = s * claimAidAmplifier p o := by
  unfold ampMobilityAid claimAidAmplifier
  by_cases h1 : p.mobility_aid = "wheelchair" <;> by_cases h2 : p.mobility_aid = "walker" <;>
    by_cases h3 : p.mobility_aid = "cane" <;> simp_all <;> split_ifs <;> ring

theorem obstaclePenalty_eq (p : AccessibilityPreferences) (o : ObstacleResponse) :
    obstaclePenalty p o = claimObstaclePenalty p o := by
  unfold obstaclePenalty claimObstaclePenalty
  rw [aidAmp_eq, typeAmp_eq]

theorem severityPenalty_nonneg (sev : String) : 0 ≤ severityPenalty sev := by
  unfold severityPenalty
  split_ifs <;> norm_num

theorem claimObstaclePenalty_nonneg (p : AccessibilityPreferences) (o : ObstacleResponse) :
    0 ≤ claimObstaclePenalty p o := by
  unfold claimObstaclePenalty claimTypeAmplifier claimAidAmplifier
  have h := severityPenalty_nonneg o.severity
  split_ifs <;> nlinarith

/-- Characterization of `_analyze_obstacle_avoidance` through the
specification-side penalty, with its range. -/
theorem analyzeObstacleAvoidance_spec (obstacles : List ObstacleResponse)
    (p : AccessibilityPreferences) :
    analyzeObstacleAvoidance obstacles p =
      (if obstacles.isEmpty then 1
       else max 0 (1 - min ((obstacles.map (claimObstaclePenalty p)).sum) (8/10))) ∧
    1/5 ≤ analyzeObstacleAvoidance obstacles p ∧
    analyzeObstacleAvoidance obstacles p ≤ 1 := by
  have hmap : obstacles.map (obstaclePenalty p) = obstacles.map (claimObstaclePenalty p) :=
    List.map_congr_left fun o _ => obstaclePenalty_eq p o
  have hsum : 0 ≤ (obstacles.map (claimObstaclePenalty p)).sum := by
    apply List.sum_nonneg
    intro x hx
    obtain ⟨o, _, rfl⟩ := List.mem_map.mp hx
    exact claimObstaclePenalty_nonneg p o
  unfold analyzeObstacleAvoidance
  rw [hmap]
  refine ⟨rfl, ?_, ?_⟩
  · split_ifs with h
    · norm_num
    · have h1 : min ((obstacles.map (claimObstaclePenalty p)).sum) (8/10) ≤ 8/10 :=
        min_le_right _ _
      have h2 : (1:ℚ)/5 ≤ 1 - min ((obstacles.map (claimObstaclePenalty p)).sum) (8/10) := by
        linarith
      exact le_trans h2 (le_max_right _ _)
  · split_ifs with h
    · norm_num
    · have h1 : 0 ≤ min ((obstacles.map (claimObstaclePenalty p)).sum) (8/10) :=
        le_min hsum (by norm_num)
      exact max_le (by norm_num) (by linarith)

/-- C4 — refuted on the code: a single high-severity obstacle of
non-avoided type affecting the mobility aid of a walker user is amplified by
`×1.2`, outside the claimed `1.3–1.5` band: the code yields `0.64`, while
any factor `f ∈ [1.3, 1.5]` would yield `1 − 0.3·f ∈ [0.55, 0.61]`. -/
theorem C4_counterexample_walker_amplifier :
    analyzeObstacleAvoidance [⟨"other", "high", false, false, true⟩]
      ⟨false, false, 5, false, false, false, false, "walker"⟩ = 16/25 ∧
    ¬ ∃ f : ℚ, 13/10 ≤ f ∧ f ≤ 15/10 ∧
      analyzeObstacleAvoidance [⟨"other", "high", false, false, true⟩]
        ⟨false, false, 5, false, false, false, false, "walker"⟩
        = max 0 (1 - min (3/10 * f) (8/10)) := by
  have hval : analyzeObstacleAvoidance [⟨"other", "high", false, false, true⟩]
      ⟨false, false, 5, false, false, false, false, "walker"⟩ = 16/25 := by
    have hpen : obstaclePenalty ⟨false, false, 5, false, false, false, false, "walker"⟩
        ⟨"other", "high", false, false, true⟩ = 9/25 := by
      norm_num [obstaclePenalty, severityPenalty, ampStairs, ampConstruction,
        ampSteepSlope, ampMobilityAid]
      rw [if_neg (by decide), if_neg (by decide)]
    rw [analyzeObstacleAvoidance]
    norm_num [hpen]
  refine ⟨hval, ?_⟩
  rintro ⟨f, hf1, hf2, hf3⟩
  rw [hval] at hf3
  have hmin : min (3/10 * f) (8/10 : ℚ) = 3/10 * f := min_eq_left (by linarith)
  rw [hmin] at hf3
  have hmax : max (0:ℚ) (1 - 3/10 * f) = 1 - 3/10 * f := max_eq_right (by linarith)
  rw [hmax] at hf3
  linarith

/-- C4 amended: `obstacle_avoidance` is `1.0` with no obstacles and otherwise
`1` minus the cumulative per-obstacle severity penalty (critical 0.5, high
0.3, medium 0.15, low 0.05) capped at `0.8`, where each obstacle's penalty is
multiplied by `1.5`/`1.3`/`1.4` when stairs/construction/steep-slope matches
the corresponding avoidance preference, and additionally by `1.3` for
wheelchair users when the obstacle affects wheelchairs, or by `1.2` (not
1.3–1.5) for walker/cane users when it affects mobility aids; the result
always lies in `[0.2, 1]`. -/
theorem C4_amended_obstacle_avoidance (obstacles : List ObstacleResponse)
    (p : AccessibilityPreferences) :
    analyzeObstacleAvoidance obstacles p =
      (if obstacles.isEmpty then 1
       else max 0 (1 - min ((obstacles.map (claimObstaclePenalty p)).sum) (8/10))) ∧
    1/5 ≤ analyzeObstacleAvoidance obstacles p ∧
    analyzeObstacleAvoidance obstacles p ≤ 1 :=
  analyzeObstacleAvoidance_spec obstacles p

/-! ### C3: comprehensive score -/

theorem clamp01_mem (y : ℚ) : 0 ≤ max 0 (min 1 y) ∧ max 0 (min 1 y) ≤ 1 :=
  ⟨le_max_left 0 _, max_le (by norm_num) (min_le_left 1 y)⟩

theorem analyzeSurfaceQuality_mem (pts : List RoutePoint) (obs : List ObstacleResponse) :
    0 ≤ analyzeSurfaceQuality pts obs ∧ analyzeSurfaceQuality pts obs ≤ 1 :=
  clamp01_mem _

theorem analyzeWidthAdequacy_mem (pts : List RoutePoint) (p : AccessibilityPreferences) :
    0 ≤ analyzeWidthAdequacy pts p ∧ analyzeWidthAdequacy pts p ≤ 1 :=
  clamp01_mem _

theorem analyzeSafetyRating_mem (pts : List RoutePoint) :
    0 ≤ analyzeSafetyRating pts ∧ analyzeSafetyRating pts ≤ 1 :=
  clamp01_mem _

theorem analyzeLightingAdequacy_mem (pts : List RoutePoint) :
    0 ≤ analyzeLightingAdequacy pts ∧ analyzeLightingAdequacy pts ≤ 1 :=
  clamp01_mem _

theorem analyzeTrafficSafety_mem (pts : List RoutePoint) :
    0 ≤ analyzeTrafficSafety pts ∧ analyzeTrafficSafety pts ≤ 1 :=
  clamp01_mem _

theorem slopeBranch_mem (sp ms : ℚ) :
    0 ≤ (if sp ≤ ms then (1:ℚ) else max 0 (1 - min 1 ((sp - ms) / 10))) ∧
    (if sp ≤ ms then (1:ℚ) else max 0 (1 - min 1 ((sp - ms) / 10))) ≤ 1 := by
  split_ifs with hsp
  · norm_num
  · push_neg at hsp
    have hnn : (0:ℚ) ≤ min 1 ((sp - ms) / 10) := le_min (by norm_num) (by linarith)
    exact ⟨le_max_left _ _, max_le (by norm_num) (by linarith)⟩

theorem slopeScoreOfPair_mem (d : ℚ → ℚ → ℚ → ℚ → ℚ) (ms : ℚ)
    (pq : RoutePoint × RoutePoint) (x : ℚ)
    (h : slopeScoreOfPair d ms pq = some x) : 0 ≤ x ∧ x ≤ 1 := by
  unfold slopeScoreOfPair at h
  rcases h1 : pq.1.elevation with _ | e1
  · rw [h1] at h; cases h
  rcases h2 : pq.2.elevation with _ | e2
  · rw [h1, h2] at h; cases h
  rw [h1, h2] at h
  simp only [Option.some.injEq] at h
  rw [← h]
  exact slopeBranch_mem _ ms

theorem list_avg_mem (l : List ℚ) (h : l ≠ []) (hm : ∀ x ∈ l, 0 ≤ x ∧ x ≤ 1) :
    0 ≤ l.sum / l.length ∧ l.sum / l.length ≤ 1 := by
  have hlen : (0 : ℚ) < l.length := by
    have := List.length_pos.mpr h
    exact_mod_cast this
  constructor
  · exact div_nonneg (List.sum_nonneg fun x hx => (hm x hx).1) (le_of_lt hlen)
  · rw [div_le_one hlen]
    calc l.sum ≤ l.length • (1 : ℚ) := List.sum_le_card_nsmul l 1 fun x hx => (hm x hx).2
    _ = l.length := by simp

theorem analyzeSlopeAccessibility_mem (d : ℚ → ℚ → ℚ → ℚ → ℚ)
    (pts : List RoutePoint) (p : AccessibilityPreferences) :
    0 ≤ analyzeSlopeAccessibility d pts p ∧ analyzeSlopeAccessibility d pts p ≤ 1 := by
  simp only [analyzeSlopeAccessibility]
  split_ifs with h1 h2
  · norm_num
  · norm_num
  · apply list_avg_mem
    · intro hnil
      rw [hnil] at h2
      exact h2 rfl
    · intro x hx
      obtain ⟨pq, _, hpq⟩ := List.mem_filterMap.mp hx
      exact slopeScoreOfPair_mem d p.max_slope_percentage pq x hpq

theorem analyzeObstacleAvoidance_mem (obs : List ObstacleResponse)
    (p : AccessibilityPreferences) :
    0 ≤ analyzeObstacleAvoidance obs p ∧ analyzeObstacleAvoidance obs p ≤ 1 := by
  obtain ⟨-, h1, h2⟩ := analyzeObstacleAvoidance_spec obs p
  exact ⟨by linarith, h2⟩

theorem round3_near (q : ℚ) : |round3 q - q| ≤ 1/2000 := by
  unfold round3
  have h := abs_sub_round (q * 1000)
  rw [abs_sub_comm] at h
  have he : ((round (q * 1000) : ℤ) : ℚ) / 1000 - q
      = ((round (q * 1000) : ℤ) - q * 1000) / 1000 := by ring
  rw [he, abs_div, abs_of_pos (by norm_num : (0:ℚ) < 1000)]
  rw [div_le_iff₀ (by norm_num : (0:ℚ) < 1000)]
  linarith

theorem round3_mem (q : ℚ) (h0 : 0 ≤ q) (h1 : q ≤ 1) :
    0 ≤ round3 q ∧ round3 q ≤ 1 := by
  unfold round3
  rw [round_eq]
  constructor
  · have : (0 : ℤ) ≤ ⌊q * 1000 + 1/2⌋ := Int.floor_nonneg.mpr (by linarith)
    positivity
  · have h2 : ⌊q * 1000 + 1/2⌋ ≤ ⌊(2001 : ℚ)/2⌋ := Int.floor_le_floor (by linarith)
    have h3 : ⌊(2001 : ℚ)/2⌋ = 1000 := by norm_num [Int.floor_eq_iff]
    rw [h3] at h2
    rw [div_le_one (by norm_num : (0:ℚ) < 1000)]
    exact_mod_cast h2

/-- The specification's invariant on a produced `AccessibilityScore`: every
component in `[0,1]`, every component an exact multiple of `1/1000`
(3-decimal rounding), and the overall score within `1e-3` of the documented
weighted sum of the returned sub-scores. -/
def claimScoreInvariant (s : AccessibilityScore) : Prop :=
  (0 ≤ s.surface_quality ∧ s.surface_quality ≤ 1) ∧
  (0 ≤ s.slope_accessibility ∧ s.slope_accessibility ≤ 1) ∧
  (0 ≤ s.obstacle_avoidance ∧ s.obstacle_avoidance ≤ 1) ∧
  (0 ≤ s.width_adequacy ∧ s.width_adequacy ≤ 1) ∧
  (0 ≤ s.safety_rating ∧ s.safety_rating ≤ 1) ∧
  (0 ≤ s.lighting_adequacy ∧ s.lighting_adequacy ≤ 1) ∧
  (0 ≤ s.traffic_safety ∧ s.traffic_safety ≤ 1) ∧
  (0 ≤ s.overall_score ∧ s.overall_score ≤ 1) ∧
  (∃ k : ℤ, s.surface_quality = k / 1000) ∧
  (∃ k : ℤ, s.slope_accessibility = k / 1000) ∧
  (∃ k : ℤ, s.obstacle_avoidance = k / 1000) ∧
  (∃ k : ℤ, s.width_adequacy = k / 1000) ∧
  (∃ k : ℤ, s.safety_rating = k / 1000) ∧
  (∃ k : ℤ, s.lighting_adequacy = k / 1000) ∧
  (∃ k : ℤ, s.traffic_safety = k / 1000) ∧
  (∃ k : ℤ, s.overall_score = k / 1000) ∧
  |s.overall_score -
    (s.surface_quality * (20/100) + s.slope_accessibility * (25/100) +
     s.obstacle_avoidance * (20/100) + s.width_adequacy * (10/100) +
     s.safety_rating * (10/100) + s.lighting_adequacy * (8/100) +
     s.traffic_safety * (7/100))| ≤ 1/1000

set_option maxHeartbeats 2000000 in
/-- C3: the comprehensive score has all seven sub-scores and the overall
score in `[0,1]` and rounded to 3 decimals, the overall score equals the
documented weighted sum within `1e-3`, the code's weight table is exactly
the documented one, and the weights sum to `1.00`. -/
theorem C3_comprehensive_score_invariant (d : ℚ → ℚ → ℚ → ℚ → ℚ)
    (pts : List RoutePoint) (p : AccessibilityPreferences)
    (obs : List ObstacleResponse) :
    claimScoreInvariant (calculateComprehensiveScore d pts p obs) ∧
    (scoring_weights "surface_quality" = 20/100 ∧
     scoring_weights "slope_accessibility" = 25/100 ∧
     scoring_weights "obstacle_avoidance" = 20/100 ∧
     scoring_weights "width_adequacy" = 10/100 ∧
     scoring_weights "safety_rating" = 10/100 ∧
     scoring_weights "lighting_adequacy" = 8/100 ∧
     scoring_weights "traffic_safety" = 7/100) ∧
    (20/100 + 25/100 + 20/100 + 10/100 + 10/100 + 8/100 + 7/100 : ℚ) = 1 := by
  have hw : scoring_weights "surface_quality" = 20/100 ∧
      scoring_weights "slope_accessibility" = 25/100 ∧
      scoring_weights "obstacle_avoidance" = 20/100 ∧
      scoring_weights "width_adequacy" = 10/100 ∧
      scoring_weights "safety_rating" = 10/100 ∧
      scoring_weights "lighting_adequacy" = 8/100 ∧
      scoring_weights "traffic_safety" = 7/100 := by
    refine ⟨?_, ?_, ?_, ?_, ?_, ?_, ?_⟩ <;> simp [scoring_weights]
  refine ⟨?_, hw, by norm_num⟩
  obtain ⟨hw1, hw2, hw3, hw4, hw5, hw6, hw7⟩ := hw
  have m1 := analyzeSurfaceQuality_mem pts obs
  have m2 := analyzeSlopeAccessibility_mem d pts p
  have m3 := analyzeObstacleAvoidance_mem obs p
  have m4 := analyzeWidthAdequacy_mem pts p
  have m5 := analyzeSafetyRating_mem pts
  have m6 := analyzeLightingAdequacy_mem pts
  have m7 := analyzeTrafficSafety_mem pts
  set r1 := analyzeSurfaceQuality pts obs
  set r2 := analyzeSlopeAccessibility d pts p
  set r3 := analyzeObstacleAvoidance obs p
  set r4 := analyzeWidthAdequacy pts p
  set r5 := analyzeSafetyRating pts
  set r6 := analyzeLightingAdequacy pts
  set r7 := analyzeTrafficSafety pts
  have hov : calculateComprehensiveScore d pts p obs =
      { overall_score := round3 (r1 * scoring_weights "surface_quality" +
          r2 * scoring_weights "slope_accessibility" +
          r3 * scoring_weights "obstacle_avoidance" +
          r4 * scoring_weights "width_adequacy" +
          r5 * scoring_weights "safety_rating" +
          r6 * scoring_weights "lighting_adequacy" +
          r7 * scoring_weights "traffic_safety")
        surface_quality := round3 r1
        slope_accessibility := round3 r2
        obstacle_avoidance := round3 r3
        width_adequacy := round3 r4
        safety_rating := round3 r5
        lighting_adequacy := round3 r6
        traffic_safety := round3 r7 } := rfl
  clear_value r1 r2 r3 r4 r5 r6 r7
  rw [hov, hw1, hw2, hw3, hw4, hw5, hw6, hw7]
  set ov := r1 * (20/100) + r2 * (25/100) + r3 * (20/100) + r4 * (10/100) +
    r5 * (10/100) + r6 * (8/100) + r7 * (7/100) with hovdef
  clear_value ov
  have hovm : 0 ≤ ov ∧ ov ≤ 1 := by
    constructor
    · rw [hovdef]
      linarith [m1.1, m2.1, m3.1, m4.1, m5.1, m6.1, m7.1]
    · rw [hovdef]
      linarith [m1.2, m2.2, m3.2, m4.2, m5.2, m6.2, m7.2]
  have n1 := round3_near r1
  have n2 := round3_near r2
  have n3 := round3_near r3
  have n4 := round3_near r4
  have n5 := round3_near r5
  have n6 := round3_near r6
  have n7 := round3_near r7
  have n0 := round3_near ov
  rw [abs_le] at n1 n2 n3 n4 n5 n6 n7 n0
  refine ⟨round3_mem r1 m1.1 m1.2, round3_mem r2 m2.1 m2.2, round3_mem r3 m3.1 m3.2,
    round3_mem r4 m4.1 m4.2, round3_mem r5 m5.1 m5.2, round3_mem r6 m6.1 m6.2,
    round3_mem r7 m7.1 m7.2, round3_mem ov hovm.1 hovm.2,
    ⟨round (r1 * 1000), rfl⟩, ⟨round (r2 * 1000), rfl⟩, ⟨round (r3 * 1000), rfl⟩,
    ⟨round (r4 * 1000), rfl⟩, ⟨round (r5 * 1000), rfl⟩, ⟨round (r6 * 1000), rfl⟩,
    ⟨round (r7 * 1000), rfl⟩, ⟨round (ov * 1000), rfl⟩, ?_⟩
  rw [abs_le]
  constructor <;> nlinarith [n0.1, n0.2, n1.1, n1.2, n2.1, n2.2, n3.1, n3.2,
    n4.1, n4.2, n5.1, n5.2, n6.1, n6.2, n7.1, n7.2]

/-! ### C8: Manhattan dogleg axis order -/

theorem foldVH (s e : Coordinates) :
    List.foldl (applyStep s e) [s] [Axis.vertical, Axis.horizontal] =
      if e.latitude = s.latitude then
        (if e.longitude = s.longitude then [s] else [s, ⟨s.latitude, e.longitude⟩])
      else
        (if e.longitude = s.longitude then [s, ⟨e.latitude, s.longitude⟩]
         else [s, ⟨e.latitude, s.longitude⟩, ⟨e.latitude, e.longitude⟩]) := by
  by_cases hv : e.latitude = s.latitude <;> by_cases hh : e.longitude = s.longitude <;>
    simp [applyStep, hv, hh]

theorem foldHV (s e : Coordinates) :
    List.foldl (applyStep s e) [s] [Axis.horizontal, Axis.vertical] =
      if e.longitude = s.longitude then
        (if e.latitude = s.latitude then [s] else [s, ⟨e.latitude, s.longitude⟩])
      else
        (if e.latitude = s.latitude then [s, ⟨s.latitude, e.longitude⟩]
         else [s, ⟨s.latitude, e.longitude⟩, ⟨e.latitude, e.longitude⟩]) := by
  by_cases hv : e.latitude = s.latitude <;> by_cases hh : e.longitude = s.longitude <;>
    simp [applyStep, hv, hh]

/-- C8: the dogleg waypoints run from start to destination, contain at most
one geometric turn point besides the endpoints, and (when both axes need
movement) the first move follows the axis selected by the accessibility
level: high → vertical first, low → horizontal first, medium → the axis of
the strictly larger absolute delta first. -/
theorem C8_dogleg_axis_order (level : String) (s e : Coordinates) :
    (s ≠ e → (gridAlignedWaypoints level s e).head? = some s ∧
      (gridAlignedWaypoints level s e).getLast? = some e ∧
      ∃ c : Coordinates, ∀ p ∈ gridAlignedWaypoints level s e, p = s ∨ p = e ∨ p = c) ∧
    (e.latitude ≠ s.latitude → e.longitude ≠ s.longitude →
      ((level = "high" →
          (gridAlignedWaypoints level s e)[1]? = some ⟨e.latitude, s.longitude⟩) ∧
       (level = "low" →
          (gridAlignedWaypoints level s e)[1]? = some ⟨s.latitude, e.longitude⟩) ∧
       (level ≠ "high" → level ≠ "low" →
          |e.latitude - s.latitude| > |e.longitude - s.longitude| →
          (gridAlignedWaypoints level s e)[1]? = some ⟨e.latitude, s.longitude⟩) ∧
       (level ≠ "high" → level ≠ "low" →
          |e.longitude - s.longitude| > |e.latitude - s.latitude| →
          (gridAlignedWaypoints level s e)[1]? = some ⟨s.latitude, e.longitude⟩))) := by
  have heta : (⟨e.latitude, e.longitude⟩ : Coordinates) = e := rfl
  unfold gridAlignedWaypoints
  split_ifs with lh ll lm
  · -- level = "high": order [vertical, horizontal]
    simp only [foldVH]
    constructor
    · intro hne
      by_cases hv : e.latitude = s.latitude <;> by_cases hh : e.longitude = s.longitude
      · exact absurd (by cases s; cases e; simp_all) hne
      · simp [hv, hh]
        exact ⟨⟨s.latitude, e.longitude⟩, by tauto⟩
      · simp [hv, hh]
        exact ⟨⟨e.latitude, s.longitude⟩, by tauto⟩
      · simp [hv, hh]
        exact ⟨⟨e.latitude, s.longitude⟩, by tauto⟩
    · intro hv hh
      refine ⟨fun _ => ?_, fun hlow => absurd (lh.symm.trans hlow) (by decide), ?_, ?_⟩
      · simp [hv, hh]
      · intro hnh; exact absurd lh hnh
      · intro hnh; exact absurd lh hnh
  · -- level = "low": order [horizontal, vertical]
    simp only [foldHV]
    constructor
    · intro hne
      by_cases hv : e.latitude = s.latitude <;> by_cases hh : e.longitude = s.longitude
      · exact absurd (by cases s; cases e; simp_all) hne
      · simp [hv, hh]
        exact ⟨⟨s.latitude, e.longitude⟩, by tauto⟩
      · simp [hv, hh]
        exact ⟨⟨e.latitude, s.longitude⟩, by tauto⟩
      · simp [hv, hh]
        exact ⟨⟨s.latitude, e.longitude⟩, by tauto⟩
    · intro hv hh
      refine ⟨fun hhigh => absurd (ll.symm.trans hhigh) (by decide), fun _ => ?_, ?_, ?_⟩
      · simp [hv, hh]
      · intro _ hnl; exact absurd ll hnl
      · intro _ hnl; exact absurd ll hnl
  · -- medium with |Δlat| ≥ |Δlon|: order [vertical, horizontal]
    simp only [foldVH]
    constructor
    · intro hne
      by_cases hv : e.latitude = s.latitude <;> by_cases hh : e.longitude = s.longitude
      · exact absurd (by cases s; cases e; simp_all) hne
      · simp [hv, hh]
        exact ⟨⟨s.latitude, e.longitude⟩, by tauto⟩
      · simp [hv, hh]
        exact ⟨⟨e.latitude, s.longitude⟩, by tauto⟩
      · simp [hv, hh]
        exact ⟨⟨e.latitude, s.longitude⟩, by tauto⟩
    · intro hv hh
      refine ⟨fun hhigh => absurd hhigh lh, fun hlow => absurd hlow ll, fun _ _ _ => ?_,
        fun _ _ hlt => ?_⟩
      · simp [hv, hh]
      · exact absurd lm (not_le.mpr hlt)
  · -- medium with |Δlat| < |Δlon|: order [horizontal, vertical]
    simp only [foldHV]
    constructor
    · intro hne
      by_cases hv : e.latitude = s.latitude <;> by_cases hh : e.longitude = s.longitude
      · exact absurd (by cases s; cases e; simp_all) hne
      · simp [hv, hh]
        exact ⟨⟨s.latitude, e.longitude⟩, by tauto⟩
      · simp [hv, hh]
        exact ⟨⟨e.latitude, s.longitude⟩, by tauto⟩
      · simp [hv, hh]
        exact ⟨⟨s.latitude, e.longitude⟩, by tauto⟩
    · intro hv hh
      refine ⟨fun hhigh => absurd hhigh lh, fun hlow => absurd hlow ll,
        fun _ _ hgt => absurd (le_of_lt hgt) lm, fun _ _ _ => ?_⟩
      simp [hv, hh]

/-- Witness for C8 at level "high" from the origin to `(1, 1)`. -/
theorem C8_dogleg_axis_order_witness :
    ((gridAlignedWaypoints "high" ⟨0, 0⟩ ⟨1, 1⟩)[1]? = some ⟨1, 0⟩) ∧
    (∃ c : Coordinates, ∀ p ∈ gridAlignedWaypoints "high" ⟨0, 0⟩ ⟨1, 1⟩,
        p = ⟨0, 0⟩ ∨ p = ⟨1, 1⟩ ∨ p = c) :=
  ⟨((C8_dogleg_axis_order "high" ⟨0, 0⟩ ⟨1, 1⟩).2 (by norm_num) (by norm_num)).1 rfl,
   ((C8_dogleg_axis_order "high" ⟨0, 0⟩ ⟨1, 1⟩).1 (by simp)).2.2⟩

/-! ### C2: simplified grid route -/

theorem consecutivePairs_cons_cons {α : Type} (a b : α) (t : List α) :
    consecutivePairs (a :: b :: t) = (a, b) :: consecutivePairs (b :: t) := rfl

theorem consecutivePairs_append_singleton {α : Type} (l : List α) (x dflt : α) (h : l ≠ []) :
    consecutivePairs (l ++ [x]) = consecutivePairs l ++ [(l.getLastD dflt, x)] := by
  induction l generalizing dflt with
  | nil => exact absurd rfl h
  | cons a t ih =>
    cases t with
    | nil => simp [consecutivePairs]
    | cons b t' =>
      have h1 : consecutivePairs ((a :: b :: t') ++ [x])
          = (a, b) :: consecutivePairs ((b :: t') ++ [x]) := rfl
      rw [h1, ih a (by simp), consecutivePairs_cons_cons]
      simp only [List.cons_append, List.getLastD_cons]

theorem sgr_base_pairs_mono (d : ℚ → ℚ → ℚ → ℚ → ℚ) (hd : ∀ a b c e, 0 ≤ d a b c e)
    (s e : Coordinates) :
    ∀ pq ∈ consecutivePairs (sgrStartPoint s :: sgrMidPoints d s e),
      pq.1.distance_from_start ≤ pq.2.distance_from_start := by
  by_cases hl : |e.latitude - s.latitude| < |e.longitude - s.longitude| <;>
    by_cases hlon : (10000:ℚ)⁻¹ < |e.longitude - s.longitude| <;>
      by_cases hlat : (10000:ℚ)⁻¹ < |e.latitude - s.latitude| <;>
        · simp [sgrMidPoints, sgrStartPoint, consecutivePairs, hl, hlon, hlat]
          try constructor
          all_goals try exact hd _ _ _ _
          all_goals try linarith [hd e.longitude s.latitude e.latitude e.longitude, hd e.latitude s.longitude e.latitude e.longitude, hd s.latitude s.longitude s.latitude e.longitude, hd s.latitude s.longitude e.latitude s.longitude]

theorem sgr_base_last_dist (d : ℚ → ℚ → ℚ → ℚ → ℚ) (s e : Coordinates) :
    ((sgrStartPoint s :: sgrMidPoints d s e).getLastD
        (sgrStartPoint s)).distance_from_start = sgrCum d s e := by
  by_cases hl : |e.latitude - s.latitude| < |e.longitude - s.longitude| <;>
    by_cases hlon : (10000:ℚ)⁻¹ < |e.longitude - s.longitude| <;>
      by_cases hlat : (10000:ℚ)⁻¹ < |e.latitude - s.latitude| <;>
        simp [sgrMidPoints, sgrCum, sgrStartPoint, hl, hlon, hlat]

theorem sgr_base_pairs_axis (d : ℚ → ℚ → ℚ → ℚ → ℚ) (s e : Coordinates) :
    ∀ pq ∈ consecutivePairs (sgrStartPoint s :: sgrMidPoints d s e),
      pq.1.latitude = pq.2.latitude ∨ pq.1.longitude = pq.2.longitude := by
  by_cases hl : |e.latitude - s.latitude| < |e.longitude - s.longitude| <;>
    by_cases hlon : (10000:ℚ)⁻¹ < |e.longitude - s.longitude| <;>
      by_cases hlat : (10000:ℚ)⁻¹ < |e.latitude - s.latitude| <;>
        · simp [sgrMidPoints, sgrStartPoint, consecutivePairs, hl, hlon, hlat]
          all_goals exfalso
          all_goals first
            | (have h1 := not_lt.mp hlon; linarith)
            | (have h1 := not_lt.mp hl; have h2 := not_lt.mp hlat; linarith)

theorem sgr_mid_empty_bounds (d : ℚ → ℚ → ℚ → ℚ → ℚ) (s e : Coordinates)
    (h : sgrMidPoints d s e = []) :
    |e.latitude - s.latitude| ≤ 1/10000 ∧ |e.longitude - s.longitude| ≤ 1/10000 := by
  by_cases hl : |e.latitude - s.latitude| < |e.longitude - s.longitude| <;>
    by_cases hlon : (10000:ℚ)⁻¹ < |e.longitude - s.longitude| <;>
      by_cases hlat : (10000:ℚ)⁻¹ < |e.latitude - s.latitude| <;>
        simp [sgrMidPoints, hl, hlon, hlat] at h ⊢ <;>
          push_neg at hlon hlat <;>
            constructor <;> linarith

theorem sgr_base_last_coords (d : ℚ → ℚ → ℚ → ℚ → ℚ) (s e : Coordinates) :
    ((sgrStartPoint s :: sgrMidPoints d s e).getLastD (sgrStartPoint s)).latitude
        = e.latitude ∨
    ((sgrStartPoint s :: sgrMidPoints d s e).getLastD (sgrStartPoint s)).longitude
        = e.longitude ∨
    sgrMidPoints d s e = [] := by
  by_cases hl : |e.latitude - s.latitude| < |e.longitude - s.longitude| <;>
    by_cases hlon : (10000:ℚ)⁻¹ < |e.longitude - s.longitude| <;>
      by_cases hlat : (10000:ℚ)⁻¹ < |e.latitude - s.latitude| <;>
        simp [sgrMidPoints, sgrStartPoint, hl, hlon, hlat]

theorem C2body (d : ℚ → ℚ → ℚ → ℚ → ℚ) (hd : ∀ a b c e, 0 ≤ d a b c e) (s e : Coordinates) :
    (s = e → simplifiedGridRoutePoints d s e = [sgrStartPoint s]) ∧
    (s ≠ e → 2 ≤ (simplifiedGridRoutePoints d s e).length) ∧
    (∀ pq ∈ consecutivePairs (simplifiedGridRoutePoints d s e),
        pq.1.distance_from_start ≤ pq.2.distance_from_start) ∧
    (∀ pq ∈ consecutivePairs (simplifiedGridRoutePoints d s e),
        pq.1.latitude = pq.2.latitude ∨ pq.1.longitude = pq.2.longitude ∨
        (|e.latitude - s.latitude| ≤ 1/10000 ∧ |e.longitude - s.longitude| ≤ 1/10000)) := by
  have hrepr : simplifiedGridRoutePoints d s e =
      if ((sgrStartPoint s :: sgrMidPoints d s e).getLastD (sgrStartPoint s)).latitude
            ≠ e.latitude ∨
          ((sgrStartPoint s :: sgrMidPoints d s e).getLastD (sgrStartPoint s)).longitude
            ≠ e.longitude
      then (sgrStartPoint s :: sgrMidPoints d s e) ++ [sgrArrival d s e]
      else (sgrStartPoint s :: sgrMidPoints d s e) := rfl
  refine ⟨?_, ?_, ?_, ?_⟩
  · rintro rfl
    simp [simplifiedGridRoutePoints, sgrMidPoints, sgrStartPoint]
    norm_num
  · intro hne
    rw [hrepr]
    split_ifs with hc
    · simp
    · push_neg at hc
      rcases hmid : sgrMidPoints d s e with _ | ⟨m, t⟩
      · rw [hmid] at hc
        simp [sgrStartPoint] at hc
        exact absurd (by cases s; cases e; simp_all : s = e) hne
      · simp [hmid]
  · rw [hrepr]
    split_ifs with hc
    · intro pq hpq
      rw [consecutivePairs_append_singleton _ _ (sgrStartPoint s) (by simp)] at hpq
      rcases List.mem_append.mp hpq with h | h
      · exact sgr_base_pairs_mono d hd s e pq h
      · simp only [List.mem_singleton] at h
        rw [h]
        rw [show (((sgrStartPoint s :: sgrMidPoints d s e).getLastD (sgrStartPoint s)), sgrArrival d s e).1
            = ((sgrStartPoint s :: sgrMidPoints d s e).getLastD (sgrStartPoint s)) from rfl]
        rw [sgr_base_last_dist d s e]
        exact le_refl _
    · exact sgr_base_pairs_mono d hd s e
  · rw [hrepr]
    split_ifs with hc
    · intro pq hpq
      rw [consecutivePairs_append_singleton _ _ (sgrStartPoint s) (by simp)] at hpq
      rcases List.mem_append.mp hpq with h | h
      · rcases sgr_base_pairs_axis d s e pq h with h1 | h1
        · exact Or.inl h1
        · exact Or.inr (Or.inl h1)
      · simp only [List.mem_singleton] at h
        rw [h]
        rcases sgr_base_last_coords d s e with h1 | h1 | h1
        · exact Or.inl (by simpa [sgrArrival] using h1)
        · exact Or.inr (Or.inl (by simpa [sgrArrival] using h1))
        · exact Or.inr (Or.inr (sgr_mid_empty_bounds d s e h1))
    · intro pq hpq
      rcases sgr_base_pairs_axis d s e pq hpq with h1 | h1
      · exact Or.inl h1
      · exact Or.inr (Or.inl h1)


/-- C2 — refuted on the code: with both coordinate deltas nonzero but below
the `1e-4` movement threshold, `_calculate_simplified_grid_route` emits no
intermediate waypoint and the single segment from start to destination
changes latitude and longitude simultaneously (it is diagonal, not
axis-aligned). -/
theorem C2_counterexample_subthreshold_diagonal :
    ¬ (∀ pq ∈ consecutivePairs (simplifiedGridRoutePoints (fun _ _ _ _ => 0)
          ⟨0, 0⟩ ⟨3/100000, 5/100000⟩),
        pq.1.latitude = pq.2.latitude ∨ pq.1.longitude = pq.2.longitude) := by
  have hpts : simplifiedGridRoutePoints (fun _ _ _ _ => 0) ⟨0, 0⟩ ⟨3/100000, 5/100000⟩
      = [sgrStartPoint ⟨0, 0⟩,
         sgrArrival (fun _ _ _ _ => 0) ⟨0, 0⟩ ⟨3/100000, 5/100000⟩] := by
    norm_num [simplifiedGridRoutePoints, sgrMidPoints, sgrStartPoint, sgrArrival, sgrCum,
      abs_of_pos]
  intro h
  have h2 := h (sgrStartPoint ⟨0, 0⟩,
      sgrArrival (fun _ _ _ _ => 0) ⟨0, 0⟩ ⟨3/100000, 5/100000⟩)
    (by rw [hpts]; simp [consecutivePairs])
  simp [sgrStartPoint, sgrArrival] at h2
  rcases h2 with h2 | h2 <;> norm_num at h2

/-- C2 amended: the simplified grid route is a single point exactly when
start equals end and otherwise has at least 2 points, its
`distance_from_start` values are monotonically non-decreasing, and every
consecutive segment is axis-aligned except that when both endpoint deltas
are at most `1e-4` (below the movement threshold) the route may consist of
one direct, possibly diagonal segment. -/
theorem C2_amended_simplified_grid_route (d : ℚ → ℚ → ℚ → ℚ → ℚ)
    (hd : ∀ a b c e, 0 ≤ d a b c e) (s e : Coordinates) :
    (s = e → simplifiedGridRoutePoints d s e = [sgrStartPoint s]) ∧
    (s ≠ e → 2 ≤ (simplifiedGridRoutePoints d s e).length) ∧
    (∀ pq ∈ consecutivePairs (simplifiedGridRoutePoints d s e),
        pq.1.distance_from_start ≤ pq.2.distance_from_start) ∧
    (∀ pq ∈ consecutivePairs (simplifiedGridRoutePoints d s e),
        pq.1.latitude = pq.2.latitude ∨ pq.1.longitude = pq.2.longitude ∨
        (|e.latitude - s.latitude| ≤ 1/10000 ∧ |e.longitude - s.longitude| ≤ 1/10000)) :=
  C2body d hd s e

/-- Witness for C2 with the zero distance function from the origin to
`(1, 1)`. -/
theorem C2_amended_simplified_grid_route_witness :
    (∀ a b c e : ℚ, 0 ≤ (fun _ _ _ _ => (0:ℚ)) a b c e) ∧
    2 ≤ (simplifiedGridRoutePoints (fun _ _ _ _ => 0) ⟨0, 0⟩ ⟨1, 1⟩).length ∧
    (∀ pq ∈ consecutivePairs (simplifiedGridRoutePoints (fun _ _ _ _ => 0) ⟨0, 0⟩ ⟨1, 1⟩),
        pq.1.distance_from_start ≤ pq.2.distance_from_start) :=
  ⟨fun _ _ _ _ => le_refl 0,
   (C2_amended_simplified_grid_route (fun _ _ _ _ => 0) (fun _ _ _ _ => le_refl 0)
      ⟨0, 0⟩ ⟨1, 1⟩).2.1 (by simp),
   (C2_amended_simplified_grid_route (fun _ _ _ _ => 0) (fun _ _ _ _ => le_refl 0)
      ⟨0, 0⟩ ⟨1, 1⟩).2.2.1⟩

/-! ### C10: Manhattan path on the grid -/

/-- Full characterization of one movement loop when every stepped-through
node is present. -/
theorem tryWalk_spec (mem : ℤ → ℤ → Bool) (mk : ℤ → ℤ × ℤ) :
    ∀ n : ℕ, ∀ cur target : ℤ, (target - cur).natAbs = n →
    (∀ k : ℤ, min cur target ≤ k → k ≤ max cur target → mem (mk k).1 (mk k).2 = true) →
    ∃ l, tryWalk mem mk cur target = some l ∧
      l.length = n ∧
      (∀ pq ∈ consecutivePairs (mk cur :: l), ∃ j j', pq.1 = mk j ∧ pq.2 = mk j' ∧
        (j' - j).natAbs = 1) ∧
      ((mk cur :: l).getLastD (mk cur) = mk target) := by
  intro n
  induction n with
  | zero =>
    intro cur target h0 _
    have hct : cur = target := by omega
    subst hct
    refine ⟨[], ?_, rfl, ?_, rfl⟩
    · rw [tryWalk]
      simp
    · intro pq hpq
      simp [consecutivePairs] at hpq
  | succ n ih =>
    intro cur target hn hmem
    have hne : cur ≠ target := by omega
    by_cases hdir : target > cur
    · have hstep : (target - (cur + 1)).natAbs = n := by omega
      have hmem' : ∀ k : ℤ, min (cur + 1) target ≤ k → k ≤ max (cur + 1) target →
          mem (mk k).1 (mk k).2 = true := by
        intro k h1 h2
        exact hmem k (by omega) (by omega)
      obtain ⟨l, hl, hlen, hchain, hlast⟩ := ih (cur + 1) target hstep hmem'
      have hmemstep : mem (mk (cur + 1)).1 (mk (cur + 1)).2 = true :=
        hmem (cur + 1) (by omega) (by omega)
      refine ⟨mk (cur + 1) :: l, ?_, by simp [hlen], ?_, ?_⟩
      · rw [tryWalk]
        simp only [if_neg hne, if_pos hdir, hmemstep, if_pos]
        rw [hl]
        rfl
      · intro pq hpq
        rw [consecutivePairs_cons_cons] at hpq
        rcases List.mem_cons.mp hpq with hpq | hpq
        · exact ⟨cur, cur + 1, by simp [hpq], by simp [hpq], by omega⟩
        · exact hchain pq hpq
      · simpa using hlast
    · have hlt : target < cur := by omega
      have hstep : (target - (cur - 1)).natAbs = n := by omega
      have hmem' : ∀ k : ℤ, min (cur - 1) target ≤ k → k ≤ max (cur - 1) target →
          mem (mk k).1 (mk k).2 = true := by
        intro k h1 h2
        exact hmem k (by omega) (by omega)
      obtain ⟨l, hl, hlen, hchain, hlast⟩ := ih (cur - 1) target hstep hmem'
      have hmemstep : mem (mk (cur - 1)).1 (mk (cur - 1)).2 = true :=
        hmem (cur - 1) (by omega) (by omega)
      refine ⟨mk (cur - 1) :: l, ?_, by simp [hlen], ?_, ?_⟩
      · rw [tryWalk]
        simp only [if_neg hne, if_neg hdir, hmemstep, if_pos]
        rw [hl]
        rfl
      · intro pq hpq
        rw [consecutivePairs_cons_cons] at hpq
        rcases List.mem_cons.mp hpq with hpq | hpq
        · exact ⟨cur, cur - 1, by simp [hpq], by simp [hpq], by omega⟩
        · exact hchain pq hpq
      · simpa using hlast

theorem getLastD_cons_irrel {α : Type} (a : α) (t : List α) (d1 d2 : α) :
    (a :: t).getLastD d1 = (a :: t).getLastD d2 := by
  rw [List.getLastD_cons, List.getLastD_cons]

theorem getLastD_cons_append {α : Type} (x d : α) (l1 l2 : List α) :
    (x :: (l1 ++ l2)).getLastD d = (((x :: l1).getLastD x) :: l2).getLastD d := by
  induction l1 generalizing x d with
  | nil => rfl
  | cons a t ih =>
    have h1 : (x :: ((a :: t) ++ l2)).getLastD d = (a :: (t ++ l2)).getLastD x :=
      List.getLastD_cons d x _
    have h2 : (x :: a :: t).getLastD x = (a :: t).getLastD a := by
      rw [List.getLastD_cons, List.getLastD_cons, List.getLastD_cons]
    rw [h1, ih a x, h2]
    exact getLastD_cons_irrel _ _ _ _

theorem consecutivePairs_cons_append {α : Type} (x : α) (l1 l2 : List α) :
    consecutivePairs (x :: (l1 ++ l2))
      = consecutivePairs (x :: l1) ++ consecutivePairs (((x :: l1).getLastD x) :: l2) := by
  induction l1 generalizing x with
  | nil => rfl
  | cons a t ih =>
    have h1 : consecutivePairs (x :: ((a :: t) ++ l2))
        = (x, a) :: consecutivePairs (a :: (t ++ l2)) := rfl
    have h2 : (x :: a :: t).getLastD x = (a :: t).getLastD a := by
      rw [List.getLastD_cons, List.getLastD_cons, List.getLastD_cons]
    rw [h1, ih a, consecutivePairs_cons_cons, h2]
    rfl

/-- C10: when the whole rectangle spanned by the start and end grid indices is
present in the grid, `_calculate_manhattan_path` returns exactly
|i2−i1| + |j2−j1| + 1 nodes, starting at the start node, ending at the end
node, with each consecutive pair differing by exactly one index step along
exactly one axis. -/
theorem C10_manhattan_path_unit_steps (mem : ℤ → ℤ → Bool) (si sj ei ej : ℤ)
    (hmem : ∀ i j : ℤ, min si ei ≤ i → i ≤ max si ei → min sj ej ≤ j → j ≤ max sj ej →
      mem i j = true) :
    (manhattanPath mem si sj ei ej).length
        = (ei - si).natAbs + (ej - sj).natAbs + 1 ∧
    (manhattanPath mem si sj ei ej).head? = some (si, sj) ∧
    (manhattanPath mem si sj ei ej).getLastD (si, sj) = (ei, ej) ∧
    ∀ pq ∈ consecutivePairs (manhattanPath mem si sj ei ej),
      (pq.2.1 - pq.1.1).natAbs + (pq.2.2 - pq.1.2).natAbs = 1 := by
  obtain ⟨hseg, hw, hlen1, hchain1, hlast1⟩ :=
    tryWalk_spec mem (fun j => (si, j)) (ej - sj).natAbs sj ej rfl
      (fun k h1 h2 => hmem si k (by omega) (by omega) (by omega) (by omega))
  obtain ⟨vseg, vw, hlen2, hchain2, hlast2⟩ :=
    tryWalk_spec mem (fun i => (i, ej)) (ei - si).natAbs si ei rfl
      (fun k h1 h2 => hmem k ej (by omega) (by omega) (by omega) (by omega))
  obtain ⟨vseg', vw', hlen2', hchain2', hlast2'⟩ :=
    tryWalk_spec mem (fun i => (i, sj)) (ei - si).natAbs si ei rfl
      (fun k h1 h2 => hmem k sj (by omega) (by omega) (by omega) (by omega))
  obtain ⟨hseg', hw', hlen1', hchain1', hlast1'⟩ :=
    tryWalk_spec mem (fun j => (ei, j)) (ej - sj).natAbs sj ej rfl
      (fun k h1 h2 => hmem ei k (by omega) (by omega) (by omega) (by omega))
  by_cases hord : (ej - sj).natAbs ≥ (ei - si).natAbs
  · have hpath : manhattanPath mem si sj ei ej = (si, sj) :: (hseg ++ vseg) := by
      simp only [manhattanPath, if_pos hord, hw, vw]
    rw [hpath]
    refine ⟨by simp [hlen1, hlen2]; omega, rfl, ?_, ?_⟩
    · rw [getLastD_cons_append]
      have hx : ((si, sj) :: hseg).getLastD (si, sj) = (si, ej) := by
        simpa using hlast1
      rw [hx, getLastD_cons_irrel _ _ _ (si, ej)]
      simpa using hlast2
    · intro pq hpq
      rw [consecutivePairs_cons_append] at hpq
      rcases List.mem_append.mp hpq with h | h
      · have h1 := hchain1 pq (by simpa using h)
        obtain ⟨j, j', e1, e2, e3⟩ := h1
        rw [e1, e2]
        simp
        omega
      · have hx : ((si, sj) :: hseg).getLastD (si, sj) = (si, ej) := by
          simpa using hlast1
        rw [hx] at h
        have h1 := hchain2 pq (by simpa using h)
        obtain ⟨j, j', e1, e2, e3⟩ := h1
        rw [e1, e2]
        simp
        omega
  · have hord' : ¬ ((ej - sj).natAbs ≥ (ei - si).natAbs) := hord
    have hpath : manhattanPath mem si sj ei ej = (si, sj) :: (vseg' ++ hseg') := by
      simp only [manhattanPath, if_neg hord', vw', hw']
    rw [hpath]
    refine ⟨by simp [hlen1', hlen2']; try omega, rfl, ?_, ?_⟩
    · rw [getLastD_cons_append]
      have hx : ((si, sj) :: vseg').getLastD (si, sj) = (ei, sj) := by
        simpa using hlast2'
      rw [hx, getLastD_cons_irrel _ _ _ (ei, sj)]
      simpa using hlast1'
    · intro pq hpq
      rw [consecutivePairs_cons_append] at hpq
      rcases List.mem_append.mp hpq with h | h
      · have h1 := hchain2' pq (by simpa using h)
        obtain ⟨j, j', e1, e2, e3⟩ := h1
        rw [e1, e2]
        simp
        omega
      · have hx : ((si, sj) :: vseg').getLastD (si, sj) = (ei, sj) := by
          simpa using hlast2'
        rw [hx] at h
        have h1 := hchain1' pq (by simpa using h)
        obtain ⟨j, j', e1, e2, e3⟩ := h1
        rw [e1, e2]
        simp
        omega

/-- Witness: the Manhattan-path characterization holds at a concrete fully
populated grid, walking from node (0,0) to node (2,1). -/
theorem C10_manhattan_path_unit_steps_witness :
    (manhattanPath (fun _ _ => true) 0 0 2 1).length
        = ((2 : ℤ) - 0).natAbs + ((1 : ℤ) - 0).natAbs + 1 ∧
    (manhattanPath (fun _ _ => true) 0 0 2 1).head? = some (0, 0) ∧
    (manhattanPath (fun _ _ => true) 0 0 2 1).getLastD (0, 0) = (2, 1) ∧
    ∀ pq ∈ consecutivePairs (manhattanPath (fun _ _ => true) 0 0 2 1),
      (pq.2.1 - pq.1.1).natAbs + (pq.2.2 - pq.1.2).natAbs = 1 :=
  C10_manhattan_path_unit_steps (fun _ _ => true) 0 0 2 1 (fun i j _ _ _ _ => rfl)

/-! ### C9: route simplification (Douglas-Peucker)

Characterization of the interior scan, termination and idempotence of
the fuel-indexed recursion, and collapse of collinear point lists. -/

theorem dpScanGo_fst_mono (dev : Coordinates → ℚ) :
    ∀ (l : List Coordinates) (i : ℕ) (bd : ℚ) (bi : ℕ),
      bd ≤ (dpScanGo dev l i bd bi).1 := by
  intro l
  induction l with
  | nil => intro i bd bi; exact le_refl bd
  | cons p t ih =>
    intro i bd bi
    rw [dpScanGo]
    split_ifs with h
    · exact le_trans (le_of_lt h) (ih (i + 1) (dev p) i)
    · exact ih (i + 1) bd bi

theorem dpScanGo_noupdate (dev : Coordinates → ℚ) :
    ∀ (l : List Coordinates) (i : ℕ) (bd : ℚ) (bi : ℕ),
      (∀ y ∈ l, ¬ dev y > bd) → dpScanGo dev l i bd bi = (bd, bi) := by
  intro l
  induction l with
  | nil => intro i bd bi _; rfl
  | cons p t ih =>
    intro i bd bi h
    rw [dpScanGo, if_neg (h p (List.mem_cons_self p t))]
    exact ih (i + 1) bd bi (fun y hy => h y (List.mem_cons_of_mem p hy))

theorem dpScanGo_stay (dev : Coordinates → ℚ) :
    ∀ (l : List Coordinates) (i : ℕ) (bd : ℚ) (bi : ℕ),
      (dpScanGo dev l i bd bi).1 ≤ bd →
      dpScanGo dev l i bd bi = (bd, bi) ∧ ∀ y ∈ l, ¬ dev y > bd := by
  intro l
  induction l with
  | nil => intro i bd bi _; exact ⟨rfl, by simp⟩
  | cons p t ih =>
    intro i bd bi h
    by_cases hp : dev p > bd
    · exfalso
      rw [dpScanGo, if_pos hp] at h
      have := dpScanGo_fst_mono dev t (i + 1) (dev p) i
      linarith
    · rw [dpScanGo, if_neg hp] at h ⊢
      obtain ⟨h1, h2⟩ := ih (i + 1) bd bi h
      refine ⟨h1, fun y hy => ?_⟩
      rcases List.mem_cons.mp hy with hy | hy
      · rw [hy]; exact hp
      · exact h2 y hy

theorem dpScanGo_decomp (dev : Coordinates → ℚ) :
    ∀ (l : List Coordinates) (i : ℕ) (bd : ℚ) (bi : ℕ),
      bd < (dpScanGo dev l i bd bi).1 →
      ∃ l1 x l2, l = l1 ++ x :: l2 ∧
        dpScanGo dev l i bd bi = (dev x, i + l1.length) ∧
        (∀ y ∈ l1, dev y < dev x) ∧ (∀ y ∈ l2, ¬ dev y > dev x) := by
  intro l
  induction l with
  | nil => intro i bd bi h; exact absurd h (lt_irrefl bd)
  | cons p t ih =>
    intro i bd bi h
    by_cases hp : dev p > bd
    · rw [dpScanGo, if_pos hp] at h ⊢
      by_cases h2 : dev p < (dpScanGo dev t (i + 1) (dev p) i).1
      · obtain ⟨l1, x, l2, ht, hr, h3, h4⟩ := ih (i + 1) (dev p) i h2
        have hpx : dev p < dev x := by rw [hr] at h2; exact h2
        refine ⟨p :: l1, x, l2, by rw [ht]; rfl, ?_, ?_, h4⟩
        · rw [hr]
          congr 1
          simp only [List.length_cons]
          omega
        · intro y hy
          rcases List.mem_cons.mp hy with hy | hy
          · rw [hy]; exact hpx
          · exact h3 y hy
      · obtain ⟨h1, h2'⟩ := dpScanGo_stay dev t (i + 1) (dev p) i (not_lt.mp h2)
        exact ⟨[], p, t, rfl, by rw [h1]; simp, by simp, h2'⟩
    · rw [dpScanGo, if_neg hp] at h ⊢
      obtain ⟨l1, x, l2, ht, hr, h3, h4⟩ := ih (i + 1) bd bi h
      have hbx : bd < dev x := by rw [hr] at h; exact h
      refine ⟨p :: l1, x, l2, by rw [ht]; rfl, ?_, ?_, h4⟩
      · rw [hr]
        congr 1
        simp only [List.length_cons]
        omega
      · intro y hy
        rcases List.mem_cons.mp hy with hy | hy
        · rw [hy]; exact lt_of_le_of_lt (not_lt.mp hp) hbx
        · exact h3 y hy

theorem dpScanGo_argmax (dev : Coordinates → ℚ) :
    ∀ (l1 : List Coordinates) (x : Coordinates) (l2 : List Coordinates)
      (i : ℕ) (bd : ℚ) (bi : ℕ),
      bd < dev x → (∀ y ∈ l1, dev y < dev x) → (∀ y ∈ l2, ¬ dev y > dev x) →
      dpScanGo dev (l1 ++ x :: l2) i bd bi = (dev x, i + l1.length) := by
  intro l1
  induction l1 with
  | nil =>
    intro x l2 i bd bi hbd _ h2
    rw [List.nil_append, dpScanGo, if_pos hbd, dpScanGo_noupdate dev l2 (i + 1) (dev x) i h2]
    simp
  | cons p t ih =>
    intro x l2 i bd bi hbd h1 h2
    rw [List.cons_append, dpScanGo]
    split_ifs with hp
    · rw [ih x l2 (i + 1) (dev p) i (h1 p (List.mem_cons_self p t))
        (fun y hy => h1 y (List.mem_cons_of_mem p hy)) h2]
      congr 1
      simp only [List.length_cons]
      omega
    · rw [ih x l2 (i + 1) bd bi hbd
        (fun y hy => h1 y (List.mem_cons_of_mem p hy)) h2]
      congr 1
      simp only [List.length_cons]
      omega

/-! List helpers -/

theorem head?_eq_headD {α : Type} [Inhabited α] (l : List α) (h : l ≠ []) :
    l.head? = some (l.headD default) := by
  cases l with
  | nil => exact absurd rfl h
  | cons c t => rfl

theorem getLast?_eq_getLastD {α : Type} [Inhabited α] (l : List α) (h : l ≠ []) :
    l.getLast? = some (l.getLastD default) := by
  rw [List.getLastD_eq_getLast?, List.getLast?_eq_getLast l h]
  rfl

theorem eq_head_mid_last {α : Type} [Inhabited α] (l : List α) (h : 2 ≤ l.length) :
    l = l.headD default :: ((l.drop 1).dropLast ++ [l.getLastD default]) := by
  cases l with
  | nil => simp at h
  | cons c t =>
    have ht : t ≠ [] := by
      intro he
      rw [he] at h
      simp at h
    have h1 : (c :: t).getLastD default = t.getLast ht := by
      rw [List.getLastD_eq_getLast?, List.getLast?_eq_getLast (c :: t) (List.cons_ne_nil c t)]
      simp only [Option.getD_some]
      exact List.getLast_cons ht
    simp only [List.headD_cons, List.drop_one, List.tail_cons, h1]
    rw [List.dropLast_append_getLast ht]

theorem sublist_dropLast_of_concat {α : Type} (u v : List α) (c : α)
    (hsub : u.Sublist (v ++ [c])) (hlast : u.getLast? = some c) :
    u.dropLast.Sublist v := by
  have hu : u ≠ [] := by
    intro he
    rw [he] at hlast
    simp at hlast
  have hu2 : u = u.dropLast ++ [c] := by
    have h2 := List.dropLast_append_getLast hu
    have hc : u.getLast hu = c := by
      rw [List.getLast?_eq_getLast u hu] at hlast
      exact Option.some_inj.mp hlast
    rw [← hc]
    exact h2.symm
  rw [← List.reverse_sublist]
  have hrev : u.reverse = c :: u.dropLast.reverse := by
    conv_lhs => rw [hu2]
    simp
  have hrev2 : (v ++ [c]).reverse = c :: v.reverse := by simp
  rw [hu2] at hsub
  have := (@List.reverse_sublist _ (u.dropLast ++ [c]) (v ++ [c])).mpr hsub
  rw [hrev2] at this
  have h3 : (u.dropLast ++ [c]).reverse = c :: u.dropLast.reverse := by simp
  rw [h3] at this
  exact (List.cons_sublist_cons.mp this)

theorem head?_dropLast_append {α : Type} (l r : List α) (h : 2 ≤ l.length) :
    (l.dropLast ++ r).head? = l.head? := by
  cases l with
  | nil => simp at h
  | cons c t =>
    cases t with
    | nil => simp at h
    | cons c2 t2 => rfl

theorem getLast?_append_right {α : Type} (l r : List α) (h : r ≠ []) :
    (l ++ r).getLast? = r.getLast? := by
  rw [List.getLast?_append]
  cases hr : r.getLast? with
  | none =>
    exfalso
    rw [List.getLast?_eq_getLast r h] at hr
    simp at hr
  | some c => rfl

theorem getLast?_drop (l : List Coordinates) (e : ℕ) (h : e < l.length) :
    (l.drop e).getLast? = l.getLast? := by
  conv_rhs => rw [← List.take_append_drop e l]
  rw [getLast?_append_right]
  intro he
  have := congrArg List.length he
  simp at this
  omega

theorem twoEnds_sublist {α : Type} [Inhabited α] (l : List α) (h : 2 ≤ l.length) :
    List.Sublist [l.headD default, l.getLastD default] l := by
  cases l with
  | nil => simp at h
  | cons c t =>
    have ht : t ≠ [] := by
      intro he
      rw [he] at h
      simp at h
    have h1 : (c :: t).getLastD default = t.getLast ht := by
      rw [List.getLastD_eq_getLast?, List.getLast?_eq_getLast (c :: t) (List.cons_ne_nil c t)]
      simp only [Option.getD_some]
      exact List.getLast_cons ht
    simp only [List.headD_cons, h1]
    rw [show [c, t.getLast ht] = c :: [t.getLast ht] from rfl]
    rw [List.cons_sublist_cons]
    rw [List.singleton_sublist]
    exact List.getLast_mem ht

theorem dropLast_concat_getLast? {α : Type} (l : List α) (c : α)
    (h : l.getLast? = some c) : l.dropLast ++ [c] = l := by
  have hl : l ≠ [] := by
    intro he
    rw [he] at h
    simp at h
  rw [List.getLast?_eq_getLast l hl] at h
  rw [← Option.some_inj.mp h]
  exact List.dropLast_append_getLast hl

/-! Deviation of the chord endpoints -/

theorem dev_head_zero (sq : ℚ → ℚ) (d : ℚ → ℚ → ℚ → ℚ → ℚ)
    (hd : ∀ la lo, d la lo la lo = 0) (a b : Coordinates) :
    pointToLineDistance sq d a a b = 0 := by
  simp only [pointToLineDistance]
  split_ifs with h
  · exact hd a.latitude a.longitude
  · rw [show (b.latitude - a.latitude) * a.longitude -
        (b.longitude - a.longitude) * a.latitude +
        b.longitude * a.latitude - b.latitude * a.longitude = 0 by ring]
    simp

theorem dev_last_zero (sq : ℚ → ℚ) (d : ℚ → ℚ → ℚ → ℚ → ℚ)
    (hd : ∀ la lo, d la lo la lo = 0) (hsq : ∀ x : ℚ, 0 < x → sq x ≠ 0)
    (a b : Coordinates) :
    pointToLineDistance sq d b a b = 0 := by
  simp only [pointToLineDistance]
  split_ifs with h
  · have hS : (b.latitude - a.latitude) ^ 2 + (b.longitude - a.longitude) ^ 2 = 0 := by
      by_contra hne
      have hpos : 0 < (b.latitude - a.latitude) ^ 2 + (b.longitude - a.longitude) ^ 2 := by
        rcases lt_or_eq_of_le (by positivity :
            (0:ℚ) ≤ (b.latitude - a.latitude) ^ 2 + (b.longitude - a.longitude) ^ 2) with
          hlt | heq
        · exact hlt
        · exact absurd heq.symm hne
      exact hsq _ hpos h
    have h1 : b.latitude = a.latitude := by nlinarith [sq_nonneg (b.latitude - a.latitude), sq_nonneg (b.longitude - a.longitude)]
    have h2 : b.longitude = a.longitude := by nlinarith [sq_nonneg (b.latitude - a.latitude), sq_nonneg (b.longitude - a.longitude)]
    rw [h1, h2]
    exact hd a.latitude a.longitude
  · rw [show (b.latitude - a.latitude) * b.longitude -
        (b.longitude - a.longitude) * b.latitude +
        b.longitude * a.latitude - b.latitude * a.longitude = 0 by ring]
    simp

/-! dpFuel characterization -/

theorem dpFuel_succ_short (sq : ℚ → ℚ) (d : ℚ → ℚ → ℚ → ℚ → ℚ)
    (f : ℕ) (points : List Coordinates) (tol : ℚ) (h : points.length < 3) :
    dpFuel sq d (f + 1) points tol = some points := by
  simp only [dpFuel]
  rw [if_pos h]

theorem dpFuel_succ_eq (sq : ℚ → ℚ) (d : ℚ → ℚ → ℚ → ℚ → ℚ)
    (f : ℕ) (points : List Coordinates) (tol : ℚ) (h3 : ¬ points.length < 3) :
    dpFuel sq d (f + 1) points tol =
      if (dpScan (dpDev sq d points) points).1 > tol then
        match dpFuel sq d f (points.take ((dpScan (dpDev sq d points) points).2 + 1)) tol,
              dpFuel sq d f (points.drop ((dpScan (dpDev sq d points) points).2)) tol with
        | some left, some right => some (left.dropLast ++ right)
        | _, _ => none
      else some [points.headD default, points.getLastD default] := by
  simp only [dpFuel, dpDev]
  rw [if_neg h3]
  rfl

theorem dpFuel_total (sq : ℚ → ℚ) (d : ℚ → ℚ → ℚ → ℚ → ℚ) (tol : ℚ) (htol : 0 ≤ tol) :
    ∀ fuel (points : List Coordinates), points.length ≤ fuel → 0 < fuel →
    ∃ out, dpFuel sq d fuel points tol = some out ∧
      out.head? = points.head? ∧ out.getLast? = points.getLast? ∧
      out.Sublist points ∧ (2 ≤ points.length → 2 ≤ out.length) := by
  intro fuel
  induction fuel with
  | zero => intro points h1 h2; omega
  | succ f ih =>
    intro points hlen _
    by_cases h3 : points.length < 3
    · exact ⟨points, dpFuel_succ_short sq d f points tol h3, rfl, rfl,
        List.Sublist.refl points, fun h => h⟩
    · push_neg at h3
      have hne : points ≠ [] := by
        intro he
        rw [he] at h3
        simp at h3
      by_cases hmd : (dpScan (dpDev sq d points) points).1 > tol
      · have hbd : (0:ℚ) < (dpScanGo (dpDev sq d points) ((points.drop 1).dropLast) 1 0 0).1 := by
          have hh : (dpScan (dpDev sq d points) points).1
              = (dpScanGo (dpDev sq d points) ((points.drop 1).dropLast) 1 0 0).1 := rfl
          rw [← hh]
          exact lt_of_le_of_lt htol hmd
        obtain ⟨l1, x, l2, hint, hscan, hlt, hle⟩ :=
          dpScanGo_decomp (dpDev sq d points) ((points.drop 1).dropLast) 1 0 0 hbd
        have he2 : dpScan (dpDev sq d points) points = (dpDev sq d points x, 1 + l1.length) := by
          rw [dpScan]
          exact hscan
        have hM : (dpScan (dpDev sq d points) points).1 = dpDev sq d points x := by rw [he2]
        have hE : (dpScan (dpDev sq d points) points).2 = 1 + l1.length := by rw [he2]
        have hlen2 : l1.length + 1 + l2.length = points.length - 2 := by
          have h4 := congrArg List.length hint
          simp at h4
          omega
        have hdecomp : points
            = points.headD default :: ((l1 ++ x :: l2) ++ [points.getLastD default]) := by
          have h5 := eq_head_mid_last points (by omega)
          rw [hint] at h5
          exact h5
        have htake : points.take (1 + l1.length + 1) = (points.headD default :: l1) ++ [x] := by
          conv_lhs => rw [hdecomp]
          rw [show 1 + l1.length + 1 = l1.length + 1 + 1 by omega]
          rw [List.take_succ_cons, List.append_assoc, List.take_append 1]
          simp
        have hdrop : points.drop (1 + l1.length)
            = x :: (l2 ++ [points.getLastD default]) := by
          conv_lhs => rw [hdecomp]
          rw [show 1 + l1.length = l1.length + 1 by omega]
          rw [List.drop_succ_cons, List.append_assoc, List.drop_left]
          rfl
        obtain ⟨left, hLeft, hLh, hLl, hLsub, hL2⟩ :=
          ih ((points.headD default :: l1) ++ [x]) (by simp; omega) (by omega)
        obtain ⟨right, hRight, hRh, hRl, hRsub, hR2⟩ :=
          ih (x :: (l2 ++ [points.getLastD default])) (by simp; omega) (by omega)
        have hL2' := hL2 (by simp)
        have hR2' := hR2 (by simp)
        refine ⟨left.dropLast ++ right, ?_, ?_, ?_, ?_, fun _ => ?_⟩
        · rw [dpFuel_succ_eq sq d f points tol (by omega), hE]
          rw [if_pos hmd]
          rw [htake, hdrop, hLeft, hRight]
        · rw [head?_dropLast_append left right hL2', hLh]
          rw [head?_eq_headD points hne]
          rfl
        · rw [getLast?_append_right left.dropLast right
            (by intro he; rw [he] at hR2'; simp at hR2'), hRl]
          rw [getLast?_eq_getLastD points hne]
          exact List.getLast?_concat (x :: l2)
        · have hLlast : left.getLast? = some x := by
            rw [hLl]
            exact List.getLast?_concat _
          have hsubL : left.dropLast.Sublist (points.headD default :: l1) :=
            sublist_dropLast_of_concat left (points.headD default :: l1) x hLsub hLlast
          have hall := List.Sublist.append hsubL hRsub
          have heq : (points.headD default :: l1) ++ (x :: (l2 ++ [points.getLastD default]))
              = points.headD default :: ((l1 ++ x :: l2) ++ [points.getLastD default]) := by
            simp
          rw [heq] at hall
          rw [hdecomp]
          exact hall
        · rw [List.length_append, List.length_dropLast]
          omega
      · refine ⟨[points.headD default, points.getLastD default], ?_, ?_, ?_, ?_,
          fun _ => by simp⟩
        · rw [dpFuel_succ_eq sq d f points tol (by omega), if_neg hmd]
        · rw [head?_eq_headD points hne]
          rfl
        · rw [getLast?_eq_getLastD points hne]
          rfl
        · exact twoEnds_sublist points (by omega)

theorem dpFuel_idem (sq : ℚ → ℚ) (d : ℚ → ℚ → ℚ → ℚ → ℚ)
    (hd : ∀ la lo, d la lo la lo = 0) (hsq : ∀ x : ℚ, 0 < x → sq x ≠ 0)
    (tol : ℚ) (htol : 0 ≤ tol) :
    ∀ fuel (points out : List Coordinates), points.length ≤ fuel →
      dpFuel sq d fuel points tol = some out →
      ∀ fuel2, out.length ≤ fuel2 → 0 < fuel2 → dpFuel sq d fuel2 out tol = some out := by
  intro fuel
  induction fuel with
  | zero =>
    intro points out h1 hout
    exact absurd hout (by rw [show dpFuel sq d 0 points tol = none from rfl]; simp)
  | succ f ih =>
    intro points out hlen hout fuel2 hf2 hf2pos
    obtain ⟨g, rfl⟩ : ∃ g, fuel2 = g + 1 := ⟨fuel2 - 1, by omega⟩
    by_cases h3 : points.length < 3
    · rw [dpFuel_succ_short sq d f points tol h3] at hout
      have hop : points = out := by injection hout
      rw [← hop]
      exact dpFuel_succ_short sq d g points tol h3
    · rw [dpFuel_succ_eq sq d f points tol h3] at hout
      push_neg at h3
      have hne : points ≠ [] := by
        intro he
        rw [he] at h3
        simp at h3
      by_cases hmd : (dpScan (dpDev sq d points) points).1 > tol
      · rw [if_pos hmd] at hout
        have hbd : (0:ℚ) < (dpScanGo (dpDev sq d points) ((points.drop 1).dropLast) 1 0 0).1 := by
          have hh : (dpScan (dpDev sq d points) points).1
              = (dpScanGo (dpDev sq d points) ((points.drop 1).dropLast) 1 0 0).1 := rfl
          rw [← hh]
          exact lt_of_le_of_lt htol hmd
        obtain ⟨l1, x, l2, hint, hscan, hlt, hle⟩ :=
          dpScanGo_decomp (dpDev sq d points) ((points.drop 1).dropLast) 1 0 0 hbd
        have he2 : dpScan (dpDev sq d points) points = (dpDev sq d points x, 1 + l1.length) := by
          rw [dpScan]
          exact hscan
        have hM : (dpScan (dpDev sq d points) points).1 = dpDev sq d points x := by rw [he2]
        have hE : (dpScan (dpDev sq d points) points).2 = 1 + l1.length := by rw [he2]
        have hMpos : 0 < dpDev sq d points x := lt_of_le_of_lt htol (hM ▸ hmd)
        have hlen2 : l1.length + 1 + l2.length = points.length - 2 := by
          have h4 := congrArg List.length hint
          simp at h4
          omega
        have hdecomp : points
            = points.headD default :: ((l1 ++ x :: l2) ++ [points.getLastD default]) := by
          have h5 := eq_head_mid_last points (by omega)
          rw [hint] at h5
          exact h5
        have htake : points.take (1 + l1.length + 1) = (points.headD default :: l1) ++ [x] := by
          conv_lhs => rw [hdecomp]
          rw [show 1 + l1.length + 1 = l1.length + 1 + 1 by omega]
          rw [List.take_succ_cons, List.append_assoc, List.take_append 1]
          simp
        have hdrop : points.drop (1 + l1.length)
            = x :: (l2 ++ [points.getLastD default]) := by
          conv_lhs => rw [hdecomp]
          rw [show 1 + l1.length = l1.length + 1 by omega]
          rw [List.drop_succ_cons, List.append_assoc, List.drop_left]
          rfl
        rw [hE, htake, hdrop] at hout
        rcases hL : dpFuel sq d f ((points.headD default :: l1) ++ [x]) tol with _ | left
        · rw [hL] at hout
          exact absurd hout (by simp)
        rcases hR : dpFuel sq d f (x :: (l2 ++ [points.getLastD default])) tol with _ | right
        · rw [hR] at hout
          exact absurd hout (by simp)
        rw [hL, hR] at hout
        have hout2 : out = left.dropLast ++ right := by injection hout with h; exact h.symm
        obtain ⟨left2, hLeft2, hLh, hLl, hLsub, hL2⟩ :=
          dpFuel_total sq d tol htol f ((points.headD default :: l1) ++ [x])
            (by simp; omega) (by omega)
        rw [hL] at hLeft2
        have hle2 : left = left2 := by injection hLeft2
        subst hle2
        obtain ⟨right2, hRight2, hRh, hRl, hRsub, hR2⟩ :=
          dpFuel_total sq d tol htol f (x :: (l2 ++ [points.getLastD default]))
            (by simp; omega) (by omega)
        rw [hR] at hRight2
        have hre2 : right = right2 := by injection hRight2
        subst hre2
        have hL2' := hL2 (by simp)
        have hR2' := hR2 (by simp)
        have hRhead : right.head? = some x := by rw [hRh]; rfl
        have hLlast : left.getLast? = some x := by
          rw [hLl]
          exact List.getLast?_concat _
        have hohead : out.head? = some (points.headD default) := by
          rw [hout2, head?_dropLast_append left right hL2', hLh]
          rfl
        have hrne : right ≠ [] := by
          intro he
          rw [he] at hR2'
          simp at hR2'
        have holast : out.getLast? = some (points.getLastD default) := by
          rw [hout2, getLast?_append_right _ _ hrne, hRl]
          exact List.getLast?_concat (x :: l2)
        by_cases ho3 : out.length < 3
        · exact dpFuel_succ_short sq d g out tol ho3
        · rw [dpFuel_succ_eq sq d g out tol ho3]
          have hoheadD : out.headD default = points.headD default := by
            rw [List.headD_eq_head?, hohead]
            rfl
          have holastD : out.getLastD default = points.getLastD default := by
            rw [List.getLastD_eq_getLast?, holast]
            rfl
          have hdev : dpDev sq d out = dpDev sq d points := by
            unfold dpDev
            rw [hoheadD, holastD]
          rw [hdev]
          obtain ⟨rtail, hrt⟩ : ∃ rtail, right = x :: rtail := by
            cases right with
            | nil => simp at hRhead
            | cons c t =>
              refine ⟨t, ?_⟩
              have hcx : c = x := by injection hRhead
              rw [hcx]
          have hrtne : rtail ≠ [] := by
            intro he
            rw [hrt, he] at hR2'
            simp at hR2'
          have hint_out : (out.drop 1).dropLast
              = (left.dropLast.drop 1) ++ (x :: rtail.dropLast) := by
            rw [hout2, hrt]
            rw [List.drop_append_of_le_length
              (by simp only [List.length_dropLast]; omega)]
            rw [List.dropLast_append_of_ne_nil _ (by simp : (x :: rtail) ≠ [])]
            congr 1
            cases rtail with
            | nil => exact absurd rfl hrtne
            | cons c t => rfl
          have hsubL : left.dropLast.Sublist (points.headD default :: l1) :=
            sublist_dropLast_of_concat left _ x hLsub hLlast
          have hbnd1 : ∀ y ∈ left.dropLast.drop 1,
              dpDev sq d points y < dpDev sq d points x := by
            intro y hy
            have hy2 : y ∈ left.dropLast := List.drop_subset 1 _ hy
            have hy3 : y ∈ points.headD default :: l1 := hsubL.subset hy2
            rcases List.mem_cons.mp hy3 with hy4 | hy4
            · rw [hy4,
                show dpDev sq d points (points.headD default) = 0 from
                  dev_head_zero sq d hd (points.headD default) (points.getLastD default)]
              exact hMpos
            · exact hlt y hy4
          have hbnd2 : ∀ y ∈ rtail.dropLast,
              ¬ dpDev sq d points y > dpDev sq d points x := by
            intro y hy
            have hy2 : y ∈ rtail := List.dropLast_subset _ hy
            have hy3 : y ∈ right := by
              rw [hrt]
              exact List.mem_cons_of_mem x hy2
            have hy4 : y ∈ x :: (l2 ++ [points.getLastD default]) := hRsub.subset hy3
            rcases List.mem_cons.mp hy4 with hy5 | hy5
            · rw [hy5]
              exact lt_irrefl _
            · rcases List.mem_append.mp hy5 with hy6 | hy6
              · exact hle y hy6
              · rw [List.mem_singleton.mp hy6,
                  show dpDev sq d points (points.getLastD default) = 0 from
                    dev_last_zero sq d hd hsq (points.headD default) (points.getLastD default)]
                exact not_lt.mpr (le_of_lt hMpos)
          have hscan_out : dpScan (dpDev sq d points) out
              = (dpDev sq d points x, 1 + (left.dropLast.drop 1).length) := by
            rw [dpScan, hint_out]
            exact dpScanGo_argmax (dpDev sq d points) (left.dropLast.drop 1) x
              rtail.dropLast 1 0 0 hMpos hbnd1 hbnd2
          rw [hscan_out]
          have hcond : ((dpDev sq d points x, 1 + (left.dropLast.drop 1).length) : ℚ × ℕ).1
              > tol := hM ▸ hmd
          rw [if_pos hcond]
          have hidx : ((dpDev sq d points x, 1 + (left.dropLast.drop 1).length) : ℚ × ℕ).2
              = left.length - 1 := by
            simp only [List.length_drop, List.length_dropLast]
            omega
          rw [hidx]
          have holen : out.length = left.length - 1 + right.length := by
            rw [hout2]
            simp [List.length_dropLast]
          have htakeo : out.take (left.length - 1 + 1) = left := by
            rw [hout2,
              show left.length - 1 + 1 = left.dropLast.length + 1 by
                simp only [List.length_dropLast],
              List.take_append 1, hrt]
            simp only [List.take_succ_cons, List.take_zero]
            exact dropLast_concat_getLast? left x hLlast
          have hdropo : out.drop (left.length - 1) = right := by
            rw [hout2, show left.length - 1 = left.dropLast.length by
              simp only [List.length_dropLast]]
            exact List.drop_left _ _
          rw [htakeo, hdropo]
          have hIL : dpFuel sq d g left tol = some left :=
            ih ((points.headD default :: l1) ++ [x]) left (by simp; omega) hL g
              (by omega) (by omega)
          have hIR : dpFuel sq d g right tol = some right :=
            ih (x :: (l2 ++ [points.getLastD default])) right (by simp; omega) hR g
              (by omega) (by omega)
          rw [hIL, hIR, hout2]
      · rw [if_neg hmd] at hout
        have hop : [points.headD default, points.getLastD default] = out := by
          injection hout
        rw [← hop]
        exact dpFuel_succ_short sq d g _ tol (by simp)

theorem coord_ext (p q : Coordinates) (h1 : p.latitude = q.latitude)
    (h2 : p.longitude = q.longitude) : p = q := by
  cases p
  cases q
  simp_all

theorem headD_mem {α : Type} [Inhabited α] (l : List α) (h : l ≠ []) :
    l.headD default ∈ l := by
  cases l with
  | nil => exact absurd rfl h
  | cons c t => exact List.mem_cons_self c t

theorem getLastD_mem {α : Type} [Inhabited α] (l : List α) (h : l ≠ []) :
    l.getLastD default ∈ l := by
  rw [List.getLastD_eq_getLast?, List.getLast?_eq_getLast l h]
  exact List.getLast_mem h

theorem simplifyRoute_total (sq : ℚ → ℚ) (d : ℚ → ℚ → ℚ → ℚ → ℚ) (tol : ℚ)
    (htol : 0 ≤ tol) (pts : List Coordinates) :
    ∃ q, simplifyRoute sq d pts tol = some q := by
  rw [simplifyRoute]
  by_cases h3 : pts.length < 3
  · exact ⟨pts, by rw [if_pos h3]⟩
  · obtain ⟨out, hout, _⟩ :=
      dpFuel_total sq d tol htol pts.length pts (le_refl _) (by omega)
    exact ⟨out, by rw [if_neg h3]; exact hout⟩

theorem simplifyRoute_idem (sq : ℚ → ℚ) (d : ℚ → ℚ → ℚ → ℚ → ℚ)
    (hd : ∀ la lo, d la lo la lo = 0) (hsq : ∀ x : ℚ, 0 < x → sq x ≠ 0)
    (tol : ℚ) (htol : 0 ≤ tol) (pts q : List Coordinates)
    (hq : simplifyRoute sq d pts tol = some q) :
    simplifyRoute sq d q tol = some q := by
  rw [simplifyRoute] at hq
  by_cases h3 : pts.length < 3
  · rw [if_pos h3] at hq
    have hpq : pts = q := by injection hq
    rw [simplifyRoute, ← hpq, if_pos h3]
  · rw [if_neg h3] at hq
    rw [simplifyRoute]
    by_cases hq3 : q.length < 3
    · rw [if_pos hq3]
    · rw [if_neg hq3]
      exact dpFuel_idem sq d hd hsq tol htol pts.length pts q (le_refl _) hq
        q.length (le_refl _) (by omega)

theorem simplifyRoute_collinear_collapse (sq : ℚ → ℚ) (d : ℚ → ℚ → ℚ → ℚ → ℚ)
    (hsq : ∀ x : ℚ, 0 < x → sq x ≠ 0) (pts : List Coordinates)
    (h3 : 3 ≤ pts.length)
    (hcol : ∃ u v w : ℚ, ¬ (u = 0 ∧ v = 0) ∧
      ∀ p ∈ pts, u * p.longitude + v * p.latitude + w = 0)
    (hab : pts.headD default ≠ pts.getLastD default) :
    simplifyRoute sq d pts 0 = some [pts.headD default, pts.getLastD default] := by
  obtain ⟨u, v, w, huv, hall⟩ := hcol
  have hane : pts ≠ [] := by
    intro he
    rw [he] at h3
    simp at h3
  have hamem : pts.headD default ∈ pts := headD_mem pts hane
  have hbmem : pts.getLastD default ∈ pts := getLastD_mem pts hane
  have hne2 : (pts.getLastD default).latitude ≠ (pts.headD default).latitude ∨
      (pts.getLastD default).longitude ≠ (pts.headD default).longitude := by
    by_contra hcc
    push_neg at hcc
    exact hab (coord_ext _ _ hcc.1.symm hcc.2.symm)
  have hSpos : 0 < ((pts.getLastD default).latitude - (pts.headD default).latitude) ^ 2
      + ((pts.getLastD default).longitude - (pts.headD default).longitude) ^ 2 := by
    rcases hne2 with h | h
    · have h1 := pow_two_pos_of_ne_zero (sub_ne_zero.mpr h)
      nlinarith [sq_nonneg ((pts.getLastD default).longitude - (pts.headD default).longitude)]
    · have h1 := pow_two_pos_of_ne_zero (sub_ne_zero.mpr h)
      nlinarith [sq_nonneg ((pts.getLastD default).latitude - (pts.headD default).latitude)]
  have hdev0 : ∀ p ∈ pts, dpDev sq d pts p = 0 := by
    intro p hp
    show pointToLineDistance sq d p (pts.headD default) (pts.getLastD default) = 0
    simp only [pointToLineDistance]
    rw [if_neg (hsq _ hSpos)]
    have e1 := hall _ hamem
    have e2 := hall _ hbmem
    have e3 := hall p hp
    have hD : ((pts.getLastD default).latitude - (pts.headD default).latitude) * p.longitude
        - ((pts.getLastD default).longitude - (pts.headD default).longitude) * p.latitude
        + (pts.getLastD default).longitude * (pts.headD default).latitude
        - (pts.getLastD default).latitude * (pts.headD default).longitude = 0 := by
      rcases not_and_or.mp huv with hu | hv
      · apply mul_left_cancel₀ hu
        rw [mul_zero]
        linear_combination ((pts.headD default).latitude - p.latitude) * e2
          + (p.latitude - (pts.getLastD default).latitude) * e1
          + ((pts.getLastD default).latitude - (pts.headD default).latitude) * e3
      · apply mul_left_cancel₀ hv
        rw [mul_zero]
        linear_combination (p.longitude - (pts.headD default).longitude) * e2
          + ((pts.getLastD default).longitude - p.longitude) * e1
          + ((pts.headD default).longitude - (pts.getLastD default).longitude) * e3
    rw [hD]
    simp
  have hscan : dpScan (dpDev sq d pts) pts = (0, 0) := by
    rw [dpScan]
    apply dpScanGo_noupdate
    intro y hy
    have hymem : y ∈ pts := by
      have h1 : y ∈ pts.drop 1 := List.dropLast_subset _ hy
      exact List.drop_subset 1 pts h1
    rw [hdev0 y hymem]
    simp
  rw [simplifyRoute, if_neg (by omega)]
  obtain ⟨f, hf⟩ : ∃ f, pts.length = f + 1 := ⟨pts.length - 1, by omega⟩
  rw [hf, dpFuel_succ_eq sq d f pts 0 (by omega), hscan]
  rw [if_neg (by norm_num)]

/-- C9 counterexample: the claimed properties fail as stated for every list and
every tolerance.  First, a collinear 3-point list whose endpoints coincide (a
closed loop) is returned unchanged at tolerance 0 instead of collapsing to its
two endpoints: the chord is degenerate, so `_point_to_line_distance` falls back
to the Haversine distance of the interior point (≈ 111194.93 m for latitude 1),
which exceeds the tolerance and the recursion keeps the point.  Second, with a
negative tolerance `_douglas_peucker` recurses forever (`max_index = 0`, so
`points[0:1]` and `points[0:]` make no progress): the model returns `none`,
the Python code raises `RecursionError`. -/
theorem C9_counterexample_simplify :
    simplifyRoute (fun x => x) (fun _ _ _ _ => 111195) [⟨0, 0⟩, ⟨1, 0⟩, ⟨0, 0⟩] 0
      = some [⟨0, 0⟩, ⟨1, 0⟩, ⟨0, 0⟩] ∧
    simplifyRoute (fun x => x) (fun _ _ _ _ => 0) [⟨0, 0⟩, ⟨1, 0⟩, ⟨2, 0⟩] (-1)
      = none := by
  constructor
  · simp [simplifyRoute, dpFuel, dpScan, dpScanGo, pointToLineDistance]
  · simp [simplifyRoute, dpFuel, dpScan, dpScanGo, pointToLineDistance]

/-- C9 (amended) — for every nonnegative tolerance `simplify_route` terminates
and is idempotent (re-simplifying its output returns the output unchanged), and
simplifying three or more collinear points with tolerance 0 whose endpoints are
distinct returns exactly the two endpoints.  `sq` abstracts `math.sqrt`
(nonzero on positive inputs) and `d` the Haversine distance (zero on identical
points). -/
theorem C9_amended_simplification (sq : ℚ → ℚ) (d : ℚ → ℚ → ℚ → ℚ → ℚ)
    (hd : ∀ la lo, d la lo la lo = 0) (hsq : ∀ x : ℚ, 0 < x → sq x ≠ 0)
    (tol : ℚ) (htol : 0 ≤ tol) (pts : List Coordinates) :
    (∃ q, simplifyRoute sq d pts tol = some q) ∧
    (∀ q, simplifyRoute sq d pts tol = some q → simplifyRoute sq d q tol = some q) ∧
    (3 ≤ pts.length →
      (∃ u v w : ℚ, ¬ (u = 0 ∧ v = 0) ∧
        ∀ p ∈ pts, u * p.longitude + v * p.latitude + w = 0) →
      pts.headD default ≠ pts.getLastD default →
      simplifyRoute sq d pts 0 = some [pts.headD default, pts.getLastD default]) :=
  ⟨simplifyRoute_total sq d tol htol pts,
   fun q hq => simplifyRoute_idem sq d hd hsq tol htol pts q hq,
   fun h3 hcol hab => simplifyRoute_collinear_collapse sq d hsq pts h3 hcol hab⟩

/-- Witness: the amended C9 theorem applied at a concrete collinear 3-point
list with distinct endpoints and tolerance 0 collapses it to its endpoints. -/
theorem C9_amended_simplification_witness :
    simplifyRoute (fun x => x) (fun _ _ _ _ => 0) [⟨0, 0⟩, ⟨1, 0⟩, ⟨2, 0⟩] 0
      = some [⟨0, 0⟩, ⟨2, 0⟩] := by
  have h := (C9_amended_simplification (fun x => x) (fun _ _ _ _ => 0)
      (fun _ _ => rfl) (fun x hx => ne_of_gt hx) 0 le_rfl
      [⟨0, 0⟩, ⟨1, 0⟩, ⟨2, 0⟩]).2.2 (by norm_num)
      ⟨1, 0, 0, by norm_num, by intro p hp; fin_cases hp <;> norm_num⟩
      (by decide)
  exact h

end Aura
